import Mathlib

/-!
Verification development for the fabio detector-image reader
(files `cbfimage.py`, `edfimage.py`, `openimage.py`).

The Python sources are shallowly embedded: byte buffers become `List Nat`
(each element a byte value 0..255), text becomes `List Char`, machine
integers become `Int` with explicit two's-complement conversion, and
fallible code returns `Except`.  All definitions are translated from the
source; the few definitions written from the specification's words are
marked as such in their doc comments.
-/

set_option maxRecDepth 20000

deriving instance DecidableEq for Except

namespace Fabio

/-! ### Two's-complement little-endian integers (struct.unpack / numpy.fromstring) -/

/-- Interpret `v` (already reduced mod `2 ^ w`) as a signed `w`-bit value. -/
def toSigned (w : Nat) (v : Nat) : Int :=
  let m := v % 2 ^ w
  if m < 2 ^ (w - 1) then (m : Int) else (m : Int) - 2 ^ w

/-- `struct.unpack("<b", ·)`: a signed 8-bit value from one byte. -/
def sint8 (b : Nat) : Int := toSigned 8 b

/-- `struct.unpack("<h", ·)`: a signed 16-bit little-endian value from two bytes. -/
def sint16le (b1 b2 : Nat) : Int := toSigned 16 (b1 + 256 * b2)

/-- `struct.unpack("<i", ·)`: a signed 32-bit little-endian value from four bytes. -/
def sint32le (c1 c2 c3 c4 : Nat) : Int :=
  toSigned 32 (c1 + 256 * (c2 + 256 * (c3 + 256 * c4)))

/-- `struct.unpack("<q", ·)`: a signed 64-bit little-endian value from eight bytes. -/
def sint64le (d1 d2 d3 d4 d5 d6 d7 d8 : Nat) : Int :=
  toSigned 64 (d1 + 256 * (d2 + 256 * (d3 + 256 * (d4 + 256 *
    (d5 + 256 * (d6 + 256 * (d7 + 256 * d8)))))))

/-- Running sums of a delta list, starting from accumulator `a` (the
mathematical cumulative reconstruction, used on the spec side). -/
def cumsumFrom (a : Int) : List Int → List Int
  | [] => []
  | d :: ds => (a + d) :: cumsumFrom (a + d) ds

/-- Whether a Python `int` fits a `numpy.int64` cell: storing a value
outside this range into an `int64` array raises `OverflowError`. -/
def fitsInt64 (x : Int) : Bool :=
  decide (-9223372036854775808 ≤ x) && decide (x ≤ 9223372036854775807)

/-- The signed 64-bit value a `numpy.int64` arithmetic step produces:
two's-complement wrap-around modulo `2 ^ 64`. -/
def wrap64 (x : Int) : Int :=
  (x + 9223372036854775808) % 18446744073709551616 - 9223372036854775808

/-- Running sums as `numpy.cumsum` computes them on an `int64` array:
every partial sum is a wrapping `int64` addition. -/
def cumsum64From (a : Int) : List Int → List Int
  | [] => []
  | d :: ds => wrap64 (a + d) :: cumsum64From (wrap64 (a + d)) ds

/-- The uncaught exceptions of the two byte-offset decoders:
`struct.error` from unpacking a short slice, `OverflowError` from storing
outside the `int64` range, `ValueError` from `numpy.fromstring` on a
slice whose length is not a multiple of the item size. -/
inductive CbfErr where
  | structError
  | overflow
  | valueError
deriving DecidableEq

/-! ### `cbfimage.analysePython` (reference sequential byte-offset decoder)

The Python loop walks `stream` with index `i`, producing up to `size`
running sums into a `numpy.zeros(size, dtype=numpy.int64)` array
`dataOut` at index `j`.  `apLoop fuel last s` models one state of the
loop: `fuel = size - j` values still to produce, `last` the running sum,
`s` the unread suffix of the stream.  `struct.unpack` on a slice shorter
than its format raises `struct.error`; the store `dataOut[j] = last` of
a Python `int` outside the signed 64-bit range raises `OverflowError`
(`last` itself stays unbounded across iterations). -/

def apLoop : Nat → Int → List Nat → Except CbfErr (List Int)
  | 0, _, _ => .ok []
  | _ + 1, _, [] => .ok []
  | n + 1, last, b :: rest =>
    if b = 128 then
      -- stream[i] == '\x80'
      match rest with
      | b1 :: b2 :: rest2 =>
        if b1 = 0 ∧ b2 = 128 then
          -- stream[i+1:i+3] == "\x00\x80"
          match rest2 with
          | c1 :: c2 :: c3 :: c4 :: rest3 =>
            if c1 = 0 ∧ c2 = 0 ∧ c3 = 0 ∧ c4 = 128 then
              -- stream[i+3:i+7] == "\x00\x00\x00\x80"
              match rest3 with
              | d1 :: d2 :: d3 :: d4 :: d5 :: d6 :: d7 :: d8 :: rest4 =>
                if fitsInt64 (last + sint64le d1 d2 d3 d4 d5 d6 d7 d8) then
                  (apLoop n (last + sint64le d1 d2 d3 d4 d5 d6 d7 d8) rest4).map
                    (fun out => (last + sint64le d1 d2 d3 d4 d5 d6 d7 d8) :: out)
                else .error .overflow  -- dataOut[j] = last
              | _ => .error .structError  -- unpack("<q", short slice)
            else
              if fitsInt64 (last + sint32le c1 c2 c3 c4) then
                (apLoop n (last + sint32le c1 c2 c3 c4) rest3).map
                  (fun out => (last + sint32le c1 c2 c3 c4) :: out)
              else .error .overflow  -- dataOut[j] = last
          | _ => .error .structError  -- unpack("<i", short slice)
        else
          if fitsInt64 (last + sint16le b1 b2) then
            (apLoop n (last + sint16le b1 b2) rest2).map
              (fun out => (last + sint16le b1 b2) :: out)
          else .error .overflow  -- dataOut[j] = last
      | _ => .error .structError  -- short peek never equals "\x00\x80"; unpack("<h") fails
    else
      if fitsInt64 (last + sint8 b) then
        (apLoop n (last + sint8 b) rest).map (fun out => (last + sint8 b) :: out)
      else .error .overflow  -- dataOut[j] = last

/-- `cbfimage.analysePython(stream, size)`: the returned array is the
zero-initialised output of length `size` whose first `j` entries were
written by the loop. -/
def analysePython (stream : List Nat) (size : Nat) : Except CbfErr (List Int) :=
  (apLoop size 0 stream).map (fun out => out ++ List.replicate (size - out.length) 0)

/-! ### `cbfimage.analyseNumpy` (alternate numpy-based decoder)

The Python loop repeatedly locates the first escape byte `0x80`
(`stream.find(key16)`), turns everything before it into `int8` deltas,
then reads a 16/32/64-bit delta after the escape and drops the consumed
prefix.  `numpy.fromstring(s, dtype)` yields `len(s) / itemsize` values
and raises when the length is not a multiple of the item size; the host
is modelled little-endian, matching `"<h"`-style decoding.  The recursion
is fuelled; each recursive call drops at least three bytes, so the fuel
`stream.length + 1` supplied by `analyseNumpy` is never exhausted. -/

def anDeltas : Nat → List Nat → Except CbfErr (List Int)
  | 0, _ => .error .valueError
  | fuel + 1, s =>
    let pre := s.takeWhile (fun b => b != 128)
    match s.dropWhile (fun b => b != 128) with
    | [] => .ok (pre.map sint8)  -- stream.find(key16) == -1
    | _ :: tail =>
      match tail with
      | [] => .ok (pre.map sint8)  -- empty int16 slice: no value, then loop ends
      | [_] => .error .valueError  -- fromstring of 1 byte as int16
      | b1 :: b2 :: rest2 =>
        if b1 = 0 ∧ b2 = 128 then
          match rest2 with
          | [] => .ok (pre.map sint8)  -- empty int32 slice: no value, then loop ends
          | [_] => .error .valueError
          | [_, _] => .error .valueError
          | [_, _, _] => .error .valueError  -- fromstring of 1..3 bytes as int32
          | c1 :: c2 :: c3 :: c4 :: rest3 =>
            if c1 = 0 ∧ c2 = 0 ∧ c3 = 0 ∧ c4 = 128 then
              match rest3 with
              | d1 :: d2 :: d3 :: d4 :: d5 :: d6 :: d7 :: d8 :: rest4 =>
                (anDeltas fuel rest4).map
                  (fun ds => pre.map sint8 ++ sint64le d1 d2 d3 d4 d5 d6 d7 d8 :: ds)
              | [] => .ok (pre.map sint8)  -- empty int64 slice: no value, then loop ends
              | _ => .error .valueError  -- fromstring of 1..7 bytes as int64
            else
              (anDeltas fuel rest3).map
                (fun ds => pre.map sint8 ++ sint32le c1 c2 c3 c4 :: ds)
        else
          (anDeltas fuel rest2).map
            (fun ds => pre.map sint8 ++ sint16le b1 b2 :: ds)

/-- `cbfimage.analyseNumpy(stream)`: concatenate all delta segments
(`numpy.hstack`), widen exactly to `int64` (`astype`) and take wrapping
`int64` cumulative sums.  The `size` argument of the Python function is
unused in its body and is therefore absent here. -/
def analyseNumpy (stream : List Nat) : Except CbfErr (List Int) :=
  (anDeltas (stream.length + 1) stream).map (fun ds => cumsum64From 0 ds)

/-- A fully well-formed stream of two maximal 64-bit deltas
(`2 ^ 63 - 1` twice): its second running sum `2 ^ 64 - 2` leaves the
signed 64-bit range. -/
def overflowStream : List Nat :=
  [128, 0, 128, 0, 0, 0, 128, 255, 255, 255, 255, 255, 255, 255, 127,
   128, 0, 128, 0, 0, 0, 128, 255, 255, 255, 255, 255, 255, 255, 127]

/-! ### Spec-side byte-offset definitions

`scanDeltas` is written from the specification's words (§4.2): walk the
input byte-by-byte producing up to `count` deltas; a non-escape byte is a
signed 8-bit delta; on `0x80` peek two bytes, on `0x00 0x80` peek four
more, selecting a 16-, 32- or 64-bit little-endian delta; stop at `count`
values or at input exhausted at a value boundary.  `none` marks an input
that ends in the middle of a multi-byte delta, where the spec's walk has
no next value.  `parseAll` is the same walk without a count limit,
succeeding only when the entire buffer is a well-formed delta stream. -/

def scanDeltas : Nat → List Nat → Option (List Int)
  | 0, _ => some []
  | _ + 1, [] => some []
  | n + 1, b :: rest =>
    if b = 128 then
      match rest with
      | b1 :: b2 :: rest2 =>
        if b1 = 0 ∧ b2 = 128 then
          match rest2 with
          | c1 :: c2 :: c3 :: c4 :: rest3 =>
            if c1 = 0 ∧ c2 = 0 ∧ c3 = 0 ∧ c4 = 128 then
              match rest3 with
              | d1 :: d2 :: d3 :: d4 :: d5 :: d6 :: d7 :: d8 :: rest4 =>
                (scanDeltas n rest4).map
                  (fun ds => sint64le d1 d2 d3 d4 d5 d6 d7 d8 :: ds)
              | _ => none
            else (scanDeltas n rest3).map (fun ds => sint32le c1 c2 c3 c4 :: ds)
          | _ => none
        else (scanDeltas n rest2).map (fun ds => sint16le b1 b2 :: ds)
      | _ => none
    else (scanDeltas n rest).map (fun ds => sint8 b :: ds)

def parseAll : List Nat → Option (List Int)
  | [] => some []
  | b :: rest =>
    if b = 128 then
      match rest with
      | b1 :: b2 :: rest2 =>
        if b1 = 0 ∧ b2 = 128 then
          match rest2 with
          | c1 :: c2 :: c3 :: c4 :: rest3 =>
            if c1 = 0 ∧ c2 = 0 ∧ c3 = 0 ∧ c4 = 128 then
              match rest3 with
              | d1 :: d2 :: d3 :: d4 :: d5 :: d6 :: d7 :: d8 :: rest4 =>
                (parseAll rest4).map
                  (fun ds => sint64le d1 d2 d3 d4 d5 d6 d7 d8 :: ds)
              | _ => none
            else (parseAll rest3).map (fun ds => sint32le c1 c2 c3 c4 :: ds)
          | _ => none
        else (parseAll rest2).map (fun ds => sint16le b1 b2 :: ds)
      | _ => none
    else (parseAll rest).map (fun ds => sint8 b :: ds)

/-! ### Byte and string utilities for `edfimage.py` -/

def BLOCKSIZE : Nat := 512

def MAX_BLOCKS : Nat := 40

def MAX_HEADER_SIZE0 : Nat := BLOCKSIZE * MAX_BLOCKS

/-- ASCII byte values of a Lean string literal. -/
def strBytes (s : String) : List Nat := s.data.map Char.toNat

/-- The whitespace byte set of `bytes.strip()`: `b" \t\n\r\x0b\x0c"`. -/
def isWsByte (b : Nat) : Bool := b == 9 || b == 10 || b == 11 || b == 12 || b == 13 || b == 32

/-- `block.strip() == b""`. -/
def allWhitespace (l : List Nat) : Bool := l.all isWsByte

/-- `file.seek(p); file.read(k)` on an in-memory byte source. -/
def readBytes (data : List Nat) (p k : Nat) : List Nat := (data.drop p).take k

def startsWithBytes : List Nat → List Nat → Bool
  | [], _ => true
  | _ :: _, [] => false
  | p :: ps, b :: bs => p == b && startsWithBytes ps bs

def findSubstrAux (pat : List Nat) : List Nat → Nat → Option Nat
  | [], i => if startsWithBytes pat [] then some i else none
  | l@(_ :: t), i => if startsWithBytes pat l then some i else findSubstrAux pat t (i + 1)

/-- `bytes.find(pat, start)`: first index `≥ start` where `pat` occurs
(`none` for Python's `-1`). -/
def findSubstrFrom (pat l : List Nat) (start : Nat) : Option Nat :=
  (findSubstrAux pat (l.drop start) 0).map (· + start)

/-- `bytes.index(byte, start)` (`none` models the `ValueError`). -/
def findByteFrom (l : List Nat) (target start : Nat) : Option Nat :=
  ((l.drop start).findIdx? (fun b => b == target)).map (· + start)

def isDigitByte (b : Nat) : Bool := 48 ≤ b && b ≤ 57

def digitsValAux : List Nat → Nat → Option Nat
  | [], acc => some acc
  | b :: t, acc => if isDigitByte b then digitsValAux t (acc * 10 + (b - 48)) else none

/-- Python `int(bytes)`: optional surrounding ASCII whitespace, an
optional sign, then one or more decimal digits. -/
def pyIntBytes (l : List Nat) : Option Int :=
  let t := ((l.dropWhile isWsByte).reverse.dropWhile isWsByte).reverse
  match t with
  | 43 :: ds => if ds = [] then none else (digitsValAux ds 0).map (fun v => (v : Int))
  | 45 :: ds => if ds = [] then none else (digitsValAux ds 0).map (fun v => -(v : Int))
  | ds => if ds = [] then none else (digitsValAux ds 0).map (fun v => (v : Int))

/-! ### `EdfImage._read_header_block`

The reader accumulates `BLOCKSIZE`-byte chunks until the terminator
regular expression `}(\r{0,1})\n` matches inside the current chunk, or a
split terminator is detected at a chunk boundary (chunk ending in the
closing brace, or in the closing brace followed by a carriage return).
`findTerm` returns the leftmost match as `(start, end)` offsets. -/

def findTerm : List Nat → Option (Nat × Nat)
  | [] => none
  | b :: rest =>
    if b = 125 ∧ rest.take 1 = [10] then some (0, 2)
    else if b = 125 ∧ rest.take 2 = [13, 10] then some (0, 3)
    else (findTerm rest).map (fun p => (p.1 + 1, p.2 + 1))

/-- Error class of `_read_header_block`: `MalformedHeaderError`, or any
other Python exception (`ValueError` from `bytes.index`,
`UnicodeDecodeError` from `.decode("ASCII")`), which callers do not
catch. -/
inductive RhbErr where
  | malformed
  | other
deriving DecidableEq

/-- The `while True` chunk loop of `_read_header_block`.  State: the
current chunk `block`, the cumulative size `blockSize` of all chunks
read, their concatenation `acc`, the file position `fp` and the runaway
bound `maxhs`.  On success it returns `(end_block, start_blob,
block_size, joined_blocks)`.  Each iteration either stops or reads a
further non-empty chunk, so the fuel `data.length + 2` supplied by
`rhbFinish` is never exhausted. -/
def rhbLoop (data : List Nat) : Nat → List Nat → Nat → List Nat → Nat → Nat →
    Except RhbErr (Nat × Nat × Nat × List Nat)
  | 0, _, _, _, _, _ => .error .malformed
  | fuel + 1, block, blockSize, acc, fp, maxhs =>
    match findTerm block with
    | some (st, en) =>
      .ok (blockSize - block.length + st, blockSize - block.length + en, blockSize, acc)
    | none =>
      -- nextblock = infile.read(BLOCKSIZE)
      if block.getLast? = some 125 ∧ (readBytes data fp BLOCKSIZE).take 1 = [10] then
        -- block ends in "}", next chunk starts with "\n"
        .ok (blockSize, blockSize + 1, blockSize, acc)
      else if block.getLast? = some 125 ∧ (readBytes data fp BLOCKSIZE).take 2 = [13, 10] then
        -- block ends in "}", next chunk starts with "\r\n"
        .ok (blockSize, blockSize + 2, blockSize, acc)
      else if block.drop (block.length - 2) = [125, 13] ∧
          (readBytes data fp BLOCKSIZE).take 1 = [10] then
        -- block ends in "}\r", next chunk starts with "\n"
        .ok (blockSize - 1, blockSize + 1, blockSize, acc)
      else if (readBytes data fp BLOCKSIZE).length = 0 ∨
          blockSize + (readBytes data fp BLOCKSIZE).length > maxhs then
        .error .malformed  -- runaway header
      else
        rhbLoop data fuel (readBytes data fp BLOCKSIZE)
          (blockSize + (readBytes data fp BLOCKSIZE).length)
          (acc ++ readBytes data fp BLOCKSIZE)
          (fp + (readBytes data fp BLOCKSIZE).length) maxhs

def edfHeaderSizeKey : List Nat := strBytes "EDF_HeaderSize"

/-- Result of `_read_header_block`: the decoded metadata bytes and the
consumed block size (the `binary_size` component of the named tuple is
always `None` in this code and is omitted). -/
structure HeaderBlock where
  header_block : List Nat
  header_size : Nat
deriving DecidableEq

/-- Tail of `_read_header_block` after the `EDF_HeaderSize` scan: run the
chunk loop, slice `block[begin_block:end_block]`, decode as ASCII, and
return the new stream position (the `infile.seek(offset, SEEK_CUR)`
always lands at `pos + start_blob`). -/
def rhbFinish (data : List Nat) (pos : Nat) (block0 : List Nat) (bb1 : Nat) (maxhs : Nat) :
    Except RhbErr (Option HeaderBlock × Nat) :=
  match rhbLoop data (data.length + 2) block0 block0.length block0 (pos + block0.length)
      maxhs with
  | .error e => .error e
  | .ok (end_block, start_blob, bsz, acc) =>
    -- header_block = block[begin_block:end_block].decode("ASCII")
    if ((acc.drop bb1).take (end_block - bb1)).all (fun b => decide (b < 128)) then
      .ok (some ⟨(acc.drop bb1).take (end_block - bb1), bsz⟩, pos + start_blob)
    else .error .other  -- .decode("ASCII") raises UnicodeDecodeError

/-- `EdfImage._read_header_block(infile, frame_id)` over an in-memory
byte source positioned at `pos`.  Returns `(none, ·)` for a clean end of
stream, the header block and the position of the data blob otherwise. -/
def read_header_block (data : List Nat) (pos : Nat) :
    Except RhbErr (Option HeaderBlock × Nat) :=
  -- block = infile.read(BLOCKSIZE)
  if (readBytes data pos BLOCKSIZE).length = 0 then
    .ok (none, pos + (readBytes data pos BLOCKSIZE).length)  -- end of file
  else
    -- begin_block = block.find(b"{")
    match (readBytes data pos BLOCKSIZE).findIdx? (fun b => b == 123) with
    | none =>
      if (readBytes data pos BLOCKSIZE).length < BLOCKSIZE ∧
          allWhitespace (readBytes data pos BLOCKSIZE) then
        .ok (none, pos + (readBytes data pos BLOCKSIZE).length)  -- empty block: valid EOF
      else .error .malformed  -- header does not contain the opening brace
    | some bb =>
      if allWhitespace ((readBytes data pos BLOCKSIZE).take bb) = false then
        .error .malformed  -- non-whitespace before the opening brace
      else
        -- the EDF_HeaderSize scan may enlarge MAX_HEADER_SIZE
        match findSubstrFrom edfHeaderSizeKey (readBytes data pos BLOCKSIZE) (bb + 1) with
        | none => rhbFinish data pos (readBytes data pos BLOCKSIZE) (bb + 1) MAX_HEADER_SIZE0
        | some st =>
          match findByteFrom (readBytes data pos BLOCKSIZE) 61 (st + edfHeaderSizeKey.length) with
          | none => .error .other  -- block.index(b"=") raises ValueError
          | some eqp =>
            match findByteFrom (readBytes data pos BLOCKSIZE) 59 (eqp + 1) with
            | none => .error .other  -- block.index(b";") raises ValueError
            | some enp =>
              match pyIntBytes
                  (((readBytes data pos BLOCKSIZE).drop (eqp + 1)).take (enp - (eqp + 1))) with
              | none =>
                -- int() failed: logged warning only
                rhbFinish data pos (readBytes data pos BLOCKSIZE) (bb + 1) MAX_HEADER_SIZE0
              | some v =>
                rhbFinish data pos (readBytes data pos BLOCKSIZE) (bb + 1)
                  (if v > (MAX_HEADER_SIZE0 : Int) then v.toNat else MAX_HEADER_SIZE0)

/-- A valid header terminator immediately precedes position `p` of the
byte source: a line feed at `p - 1` preceded by the closing brace, or by
a carriage return that is itself preceded by the closing brace. -/
def termValidAt (data : List Nat) (p : Nat) : Prop :=
  data[p - 1]? = some 10 ∧
    (data[p - 2]? = some 125 ∨ (data[p - 2]? = some 13 ∧ data[p - 3]? = some 125))

/-- Concrete container whose header terminator `}\n` is split across the
512-byte chunk boundary: `{`, 510 fill bytes, `}` at offset 511, `\n` at
offset 512, then a one-byte blob. -/
def c4SplitData : List Nat := 123 :: (List.replicate 510 32 ++ [125, 10, 65])

/-- Concrete container with the same layout but the terminator entirely
inside the first chunk: `{`, 509 fill bytes, `}\n`, then a one-byte blob. -/
def c4InData : List Nat := 123 :: (List.replicate 509 32 ++ [125, 10, 65])

/-! ### Header text parsing (`EdfFrame._create_header`, `_compute_capsheader`)

Header text is `List Char`; the header mapping and the capitalised index
are association lists with Python-dict semantics: assignment updates the
value at the first occurrence of an existing key in place, otherwise
appends. -/

def dictSet {α β : Type _} [DecidableEq α] : List (α × β) → α → β → List (α × β)
  | [], k, v => [(k, v)]
  | (k0, v0) :: t, k, v => if k0 = k then (k0, v) :: t else (k0, v0) :: dictSet t k v

def dictGet? {α β : Type _} [DecidableEq α] : List (α × β) → α → Option β
  | [], _ => none
  | (k0, v0) :: t, k => if k0 = k then some v0 else dictGet? t k

/-- `key.upper()`. -/
def upperChars (l : List Char) : List Char := l.map Char.toUpper

/-- `string.whitespace + "\x00"` (the strip set of `_create_header`). -/
def isStripChar (c : Char) : Bool :=
  c == ' ' || c == '\t' || c == '\n' || c == '\r' || c == '\x0b' || c == '\x0c' || c == '\x00'

def stripChars (l : List Char) : List Char :=
  ((l.dropWhile isStripChar).reverse.dropWhile isStripChar).reverse

/-- `str.split(c)` (all occurrences; empty parts preserved). -/
def splitOnChar (c : Char) : List Char → List (List Char)
  | [] => [[]]
  | x :: xs =>
    match splitOnChar c xs with
    | [] => [[]]
    | g :: gs => if x = c then [] :: g :: gs else (x :: g) :: gs

/-- `line.split(c, 1)`: the part before the first `c` and the rest. -/
def breakAtFirst (c : Char) : List Char → List Char × List Char
  | [] => ([], [])
  | x :: xs =>
    if x = c then ([], xs)
    else ((breakAtFirst c xs).1.cons x, (breakAtFirst c xs).2)

/-- The header mapping built by `EdfFrame._create_header`: split the
block on `;`, keep lines containing `=`, split each at the first `=`,
strip whitespace and NUL from key and value, assign in order. -/
def headerOf (hstr : List Char) : List (List Char × List Char) :=
  (splitOnChar ';' hstr).foldl
    (fun h line =>
      if line.contains '=' then
        dictSet h (stripChars (breakAtFirst '=' line).1) (stripChars (breakAtFirst '=' line).2)
      else h) []

/-- The capitalised index built by `_create_header`'s final loop
(`capsHeader[key.upper()] = key`: plain assignment, so a later colliding
key overwrites an earlier one). -/
def capsOfHeader (header : List (List Char × List Char)) : List (List Char × List Char) :=
  header.foldl (fun c kv => dictSet c (upperChars kv.1) kv.1) []

/-- `EdfFrame._create_header(header_block)`: the header mapping and the
capitalised lookup index. -/
def create_header (hstr : List Char) :
    List (List Char × List Char) × List (List Char × List Char) :=
  (headerOf hstr, capsOfHeader (headerOf hstr))

/-- `EdfFrame._compute_capsheader`: the same index but guarded by
`if upperkey not in capsHeader`, so the first colliding key wins. -/
def compute_capsheader (header : List (List Char × List Char)) :
    List (List Char × List Char) :=
  header.foldl
    (fun c kv =>
      if (dictGet? c (upperChars kv.1)).isSome then c
      else dictSet c (upperChars kv.1) kv.1) []

/-! ### `EdfFrame._extract_header_metadata` -/

/-- Python `x in s` substring test. -/
def isPrefixChars : List Char → List Char → Bool
  | [], _ => true
  | _ :: _, [] => false
  | p :: ps, c :: cs => p == c && isPrefixChars ps cs

def hasSubChars (pat : List Char) : List Char → Bool
  | [] => isPrefixChars pat []
  | l@(_ :: t) => isPrefixChars pat l || hasSubChars pat t

def digitsValC : List Char → Nat → Option Nat
  | [], acc => some acc
  | c :: t, acc => if c.isDigit then digitsValC t (acc * 10 + (c.toNat - 48)) else none

def isWsChar (c : Char) : Bool :=
  c == ' ' || c == '\t' || c == '\n' || c == '\r' || c == '\x0b' || c == '\x0c'

/-- Python `int(str)`: optional surrounding whitespace, an optional sign,
one or more decimal digits. -/
def pyIntChars (l : List Char) : Option Int :=
  match ((l.dropWhile isWsChar).reverse.dropWhile isWsChar).reverse with
  | '+' :: ds => if ds = [] then none else (digitsValC ds 0).map (fun v => (v : Int))
  | '-' :: ds => if ds = [] then none else (digitsValC ds 0).map (fun v => -(v : Int))
  | ds => if ds = [] then none else (digitsValC ds 0).map (fun v => (v : Int))

/-- Modelled from the spec: `fabioutils.nice_int` parses a declared
integer header value (`int(s)`); the sources of `fabioutils` are not in
the source set.  The real helper's fallback `int(float(s))` for
float-shaped text is not modelled — the spec's sizes and dimensions are
integers. -/
def nice_int (l : List Char) : Option Int := pyIntChars l

/-- `EdfFrame.get_data_rank`: fold over the capitalised keys, tracking
Python's loop variable `index`, which keeps its previous value when
`int(key[4:])` raises (and is unbound — a `NameError` — when that happens
on the first `DIM_` key). -/
def rankFold : List (List Char) → Int → Option Int → Except Unit Int
  | [], rank, _ => .ok rank
  | k :: ks, rank, idx0 =>
    if isPrefixChars ("DIM_".data) k then
      match pyIntChars (k.drop 4) with
      | some i => rankFold ks (if i > rank then i else rank) (some i)
      | none =>
        match idx0 with
        | none => .error ()  -- NameError: `index` referenced before assignment
        | some i => rankFold ks (if i > rank then i else rank) idx0
    else rankFold ks rank idx0

def get_data_rank (caps : List (List Char × List Char)) : Except Unit Int :=
  rankFold (caps.map Prod.fst) 0 none

def intToChars (i : Int) : List Char := (toString i).data

/-- `EdfFrame.get_data_shape`: build the shape by prepending each
`DIM_i`; Python's `dimi` likewise keeps its previous value when
`nice_int` raises. -/
def shapeLoop (header caps : List (List Char × List Char)) :
    List Int → List Int → Option Int → Except Unit (List Int)
  | [], shape, _ => .ok shape
  | ir :: irs, shape, dim0 =>
    match dictGet? caps ("DIM_".data ++ intToChars ir) with
    | some k =>
      match dictGet? header k with
      | none => .error ()  -- KeyError
      | some v =>
        match nice_int v with
        | some d => shapeLoop header caps irs (d :: shape) (some d)
        | none =>
          match dim0 with
          | none => .error ()  -- NameError: `dimi` referenced before assignment
          | some d => shapeLoop header caps irs (d :: shape) dim0
    | none =>
      shapeLoop header caps irs ((if ir = 1 then 0 else 1) :: shape)
        (some (if ir = 1 then 0 else 1))

/-- `range(1, rank + 1)`. -/
def iranksOf (rank : Int) : List Int := (List.range rank.toNat).map (fun i => (i : Int) + 1)

def get_data_shape (rank : Int) (header caps : List (List Char × List Char)) :
    Except Unit (List Int) :=
  shapeLoop header caps (iranksOf rank) [] none

/-- `EdfFrame.get_data_counts`. -/
def get_data_counts (shape : List Int) : Int := shape.foldl (· * ·) 1

/-- `edfimage.DATA_TYPES`, mapped to the numpy element width in bytes
(the only attribute of the dtype this model consumes); the `float128`
entries exist on the modelled platform. -/
def DATA_TYPES : List (String × Nat) :=
  [("SignedByte", 1), ("Signed8", 1), ("UnsignedByte", 1), ("Unsigned8", 1),
   ("SignedShort", 2), ("Signed16", 2), ("UnsignedShort", 2), ("Unsigned16", 2),
   ("UnsignedShortInteger", 2), ("SignedInteger", 4), ("Signed32", 4),
   ("UnsignedInteger", 4), ("Unsigned32", 4), ("SignedLong", 4), ("UnsignedLong", 4),
   ("Signed64", 8), ("Unsigned64", 8), ("FloatValue", 4), ("FLOATVALUE", 4),
   ("FLOAT", 4), ("Float", 4), ("FloatIEEE32", 4), ("Float32", 4), ("Double", 8),
   ("DoubleValue", 8), ("FloatIEEE64", 8), ("DoubleIEEE64", 8), ("FloatIEEE128", 16),
   ("DoubleIEEE128", 16), ("QuadrupleValue", 16)]

def dataTypeBpp (v : List Char) : Option Nat :=
  (DATA_TYPES.find? (fun p => p.1.data == v)).map (fun p => p.2)

/-- `numpy.little_endian` of the modelled host. -/
def numpy_little_endian : Bool := true

/-- The metadata `_extract_header_metadata` stores on the frame. -/
structure FrameMeta where
  blobsize : Option Int
  shape : List Int
  bpp : Nat
  compression : Option (List Char)
  swap : Option Bool
  size : Int
deriving DecidableEq

/-- `self.blobsize` from the `SIZE` key (a failed `nice_int` is caught
and leaves it `None`; a missing header entry for the capitalised key is
an uncaught `KeyError`). -/
def extractBlobsize (header caps : List (List Char × List Char)) :
    Except Unit (Option Int) :=
  match dictGet? caps ("SIZE".data) with
  | none => .ok none
  | some k =>
    match dictGet? header k with
    | none => .error ()  -- KeyError
    | some v =>
      match nice_int v with
      | some n => .ok (some n)
      | none => .ok none  -- ValueError caught: logged warning

/-- `self._dtype` from the `DATATYPE` key (default `numpy.uint16`, width
2, with a logged warning; an unknown type name is an uncaught
`KeyError`). -/
def extractBpp (header caps : List (List Char × List Char)) : Except Unit Nat :=
  match dictGet? caps ("DATATYPE".data) with
  | none => .ok 2  -- bytecode = numpy.uint16
  | some k =>
    match dictGet? header k with
    | none => .error ()  -- KeyError
    | some v =>
      match dataTypeBpp v with
      | none => .error ()  -- KeyError in DATA_TYPES
      | some bpp => .ok bpp

/-- `self._data_compression` from the `COMPRESSION` key: upper-cased,
with `"NONE"` and anything starting `"NO"` collapsed to `None`. -/
def extractCompression (header caps : List (List Char × List Char)) :
    Except Unit (Option (List Char)) :=
  match dictGet? caps ("COMPRESSION".data) with
  | none => .ok none
  | some k =>
    match dictGet? header k with
    | none => .error ()  -- KeyError
    | some v =>
      if upperChars v = "NONE".data then .ok none
      else if isPrefixChars ("NO".data) (upperChars v) then .ok none
      else .ok (some (upperChars v))

/-- `EdfFrame._extract_header_metadata(capsHeader)` on a frame fresh from
`_readheader` (`_dtype`, `size` and `_data_swap_needed` all `None`).  The
final two `if` statements of the source run in order, so the second
(High-on-little / Low-on-big) wins when both fire; with neither `"Low"`
nor `"High"` in the byte-order value the swap decision stays `None`. -/
def extract_header_metadata (header caps : List (List Char × List Char)) :
    Except Unit FrameMeta :=
  match extractBlobsize header caps with
  | .error e => .error e
  | .ok blobsize0 =>
    match get_data_rank caps with
    | .error e => .error e
    | .ok rank =>
      match get_data_shape rank header caps with
      | .error e => .error e
      | .ok shape =>
        match extractBpp header caps with
        | .error e => .error e
        | .ok bpp =>
          match extractCompression header caps with
          | .error e => .error e
          | .ok comp =>
            match dictGet? caps ("BYTEORDER".data) with
            | none => .error ()  -- KeyError: capsHeader['BYTEORDER']
            | some k =>
              match dictGet? header k with
              | none => .error ()  -- KeyError
              | some byte_order =>
                .ok
                  { blobsize :=
                      match blobsize0 with
                      | some b => some b
                      | none =>
                        if comp = none then some (get_data_counts shape * (bpp : Int))
                        else none
                    shape := shape
                    bpp := bpp
                    compression := comp
                    swap :=
                      if (hasSubChars ("High".data) byte_order && numpy_little_endian) ||
                          (hasSubChars ("Low".data) byte_order && !numpy_little_endian) then
                        some (bpp == 2 || bpp == 4 || bpp == 8)
                      else if (hasSubChars ("Low".data) byte_order && numpy_little_endian) ||
                          (hasSubChars ("High".data) byte_order && !numpy_little_endian) then
                        some false
                      else none
                    size := get_data_counts shape * (bpp : Int) }

/-- `EdfFrame.swap_needed()`. -/
def swap_needed (m : FrameMeta) : Option Bool := m.swap

/-! ### `EdfImage._readheader` (directory-building pass) -/

/-- Fatal outcomes of the pass: `IOError("Invalid first header")`,
`IOError("Empty file")`, or any other propagated exception. -/
inductive RdErr where
  | invalidFirst
  | empty
  | other
deriving DecidableEq

/-- One frame of the directory. -/
structure EFrame where
  header : List (List Char × List Char)
  blobsize : Option Int
  start : Nat
  index : Nat
  shape : List Int
  bpp : Nat
  compression : Option (List Char)
  swap : Option Bool
  size : Int
  incomplete_data : Bool
deriving DecidableEq

def bytesToChars (l : List Nat) : List Char := l.map Char.ofNat

/-- The `while True` loop of `_readheader`, returning the frame list and
the `_incomplete_file` flag.  The blob is skipped with
`infile.seek(blobsize - 1); infile.read(1)`: an empty read marks the
frame and the container incomplete and stops.  The fuel
`data.length + 2` supplied by `readheader` covers every terminating run
(each iteration with a non-negative declared size advances the cursor);
exhausting it corresponds to the unbounded Python loop a negative
declared size can produce. -/
def readheaderLoop (data : List Nat) : Nat → Nat → List EFrame →
    Except RdErr (List EFrame × Bool)
  | 0, _, _ => .error .other
  | fuel + 1, pos, frames =>
    match read_header_block data pos with
    | .error .malformed =>
      if frames.length = 0 then .error .invalidFirst
      else .ok (frames, true)  -- self._incomplete_file = True; break
    | .error .other => .error .other
    | .ok (none, _) =>
      if frames.length = 0 then .error .empty
      else .ok (frames, false)  -- end of file
    | .ok (some hb, npos) =>
      match extract_header_metadata (create_header (bytesToChars hb.header_block)).1
          (create_header (bytesToChars hb.header_block)).2 with
      | .error _ => .error .other  -- metadata-extraction exceptions propagate
      | .ok m =>
        match m.blobsize with
        | none => .error .other  -- infile.seek(None - 1) raises TypeError
        | some bs =>
          if (npos : Int) + bs - 1 < 0 then .error .other  -- negative seek raises
          else if ((npos : Int) + bs - 1).toNat < data.length then
            readheaderLoop data fuel (((npos : Int) + bs - 1).toNat + 1)
              (frames ++ [⟨(create_header (bytesToChars hb.header_block)).1, m.blobsize,
                npos, frames.length, m.shape, m.bpp, m.compression, m.swap, m.size, false⟩])
          else
            .ok (frames ++ [⟨(create_header (bytesToChars hb.header_block)).1, m.blobsize,
              npos, frames.length, m.shape, m.bpp, m.compression, m.swap, m.size, true⟩],
              true)

/-- `EdfImage._readheader(infile)` over an in-memory byte source. -/
def readheader (data : List Nat) : Except RdErr (List EFrame × Bool) :=
  readheaderLoop data (data.length + 2) 0 []

/-- A placeholder frame for instantiating loop-level statements. -/
def dummyFrame : EFrame := ⟨[], none, 0, 0, [], 0, none, none, 0, false⟩

/-! ### `openimage.MAGIC_NUMBERS` and `openimage.do_magic` -/

def MAGIC_NUMBERS : List (List Nat × String) :=
  [(strBytes "FORMAT :100", "bruker100"),
   (strBytes "FORMAT :        86", "bruker"),
   ([77, 77, 0, 42], "tif"),
   ([73, 73, 42, 0, 8, 0], "marccd/tif"),
   ([73, 73, 42, 0, 130, 0], "pilatus"),
   ([73, 73, 42, 0], "tif"),
   (strBytes "\x7b\nHEA", "dtrek"),
   ([123], "edf"),
   ([13, 123], "edf"),
   ([10, 123], "edf"),
   (strBytes "ADEPT", "GE"),
   (strBytes "OD", "OXD"),
   (strBytes "IM", "HiPiC"),
   ([45, 4], "mar345"),
   ([210, 4], "mar345"),
   ([4, 45], "mar345"),
   ([4, 210], "mar345"),
   ([77, 0, 0, 0, 65, 0, 0, 0, 83, 0, 0, 0, 75, 0, 0, 0], "fit2dmask"),
   ([0, 0, 0, 3], "dm3"),
   (strBytes "No", "kcd"),
   (strBytes "<", "xsd"),
   ([10, 184, 3, 0], "pixi"),
   ([137, 72, 68, 70, 13, 10, 26, 10], "eiger/hdf5"),
   (strBytes "R-AXIS", "raxis"),
   ([147] ++ strBytes "NUMPY", "numpy"),
   (strBytes "\\$FFF_START", "fit2d"),
   ([255, 216, 255, 219], "jpeg"),
   ([255, 216, 255, 224], "jpeg"),
   ([255, 216, 255, 225], "jpeg"),
   ([0, 0, 0, 12, 106, 80, 32, 32, 13, 10, 135, 10], "jpeg2k")]

def doMagicGo : List (List Nat × String) → List Nat → String → Option (List String)
  | [], _, _ => none
  | (magic, ftype) :: rest, byts, filename =>
    if startsWithBytes magic byts then
      if hasSubChars ("/".data) ftype.data then
        if ftype = "eiger/hdf5" then
          if hasSubChars ("::".data) filename.data then some ["hdf5"]
          else some ["eiger", "soleil"]
        else if ftype = "marccd/tif" then
          if ("mccd".data) ∈ splitOnChar '.' filename.data then some ["marccd"]
          else some ["tif"]
        else some [ftype]
      else some [ftype]
    else doMagicGo rest byts filename

/-- `openimage.do_magic(byts, filename)`: first-match-wins over the
ordered magic-number table, with the two context-sensitive entries
resolved by the filename. -/
def do_magic (byts : List Nat) (filename : String) : Option (List String) :=
  doMagicGo MAGIC_NUMBERS byts filename

/-! ### Concrete frames for the truncation analysis -/

/-- A complete frame: header declaring a 4-byte blob, followed by 4 data
bytes. -/
def c5Header1 : List Nat :=
  strBytes "\x7bByteOrder = LowByteFirst ; DataType = UnsignedByte ; Dim_1 = 4 ; Size = 4 ;\x7d\n"

/-- A frame declaring a 100-byte blob of which only 2 bytes follow. -/
def c5Header2 : List Nat :=
  strBytes "\x7bByteOrder = LowByteFirst ; DataType = UnsignedByte ; Dim_1 = 4 ; Size = 100 ;\x7d\n"

/-- Two-frame container truncated inside the second frame's blob. -/
def c5Data : List Nat := c5Header1 ++ [1, 2, 3, 4] ++ c5Header2 ++ [9, 9]

/-- The directory entry the pass builds for the first frame. -/
def c5Frame1 : EFrame :=
  ⟨[(("ByteOrder".data), ("LowByteFirst".data)), (("DataType".data), ("UnsignedByte".data)),
    (("Dim_1".data), ("4".data)), (("Size".data), ("4".data))],
   some 4, 78, 0, [4], 1, none, some false, 4, false⟩

/-- The directory entry for the truncated second frame. -/
def c5Frame2 : EFrame :=
  ⟨[(("ByteOrder".data), ("LowByteFirst".data)), (("DataType".data), ("UnsignedByte".data)),
    (("Dim_1".data), ("4".data)), (("Size".data), ("100".data))],
   some 100, 162, 1, [4], 1, none, some false, 4, true⟩

/-- The header block `_read_header_block` returns for the second frame. -/
def c5Hb2 : HeaderBlock :=
  ⟨strBytes "ByteOrder = LowByteFirst ; DataType = UnsignedByte ; Dim_1 = 4 ; Size = 100 ;", 82⟩

/-- The metadata extracted from the second frame's header. -/
def c5Meta2 : FrameMeta := ⟨some 100, [4], 1, none, some false, 4⟩

/-! ## Theorems -/

/-! ### Byte-offset codec lemmas -/

theorem scanDeltas_nil : ∀ n : Nat, scanDeltas n [] = some [] := by
  intro n
  cases n <;> rfl

theorem apLoop_nil : ∀ (n : Nat) (last : Int), apLoop n last [] = .ok [] := by
  intro n last
  cases n <;> rfl

theorem length_cumsumFrom : ∀ (a : Int) (ds : List Int),
    (cumsumFrom a ds).length = ds.length := by
  intro a ds
  induction ds generalizing a with
  | nil => rfl
  | cons d ds ih => simp [cumsumFrom, ih]

theorem wrap64_id (x : Int) (h : fitsInt64 x = true) : wrap64 x = x := by
  simp only [fitsInt64, Bool.and_eq_true, decide_eq_true_eq] at h
  unfold wrap64
  omega

/-- Wrapping `int64` running sums agree with the unbounded ones exactly
when every partial sum fits the signed 64-bit range. -/
theorem cumsum64_eq_cumsum (a : Int) (ds : List Int)
    (h : (cumsumFrom a ds).all fitsInt64 = true) :
    cumsum64From a ds = cumsumFrom a ds := by
  induction ds generalizing a with
  | nil => rfl
  | cons d ds ih =>
    simp only [cumsumFrom, List.all_cons, Bool.and_eq_true] at h
    simp only [cumsum64From, cumsumFrom, wrap64_id _ h.1]
    rw [ih _ h.2]

/-- The sequential decoder's loop agrees with the spec-side walk wherever
the latter is defined and no stored running sum overflows `int64`. -/
theorem apLoop_scanDeltas :
    ∀ (n : Nat) (s : List Nat) (last : Int) (ds : List Int),
      scanDeltas n s = some ds → (cumsumFrom last ds).all fitsInt64 = true →
      apLoop n last s = .ok (cumsumFrom last ds) := by
  intro n
  induction n with
  | zero =>
    intro s last ds h hr
    rw [scanDeltas.eq_def] at h
    simp at h
    subst h
    rfl
  | succ n ih =>
    intro s last ds h hr
    cases s with
    | nil =>
      rw [scanDeltas.eq_def] at h
      simp at h
      subst h
      rfl
    | cons b rest =>
      by_cases hb : b = 128
      · subst hb
        rcases rest with _ | ⟨b1, _ | ⟨b2, rest2⟩⟩
        · rw [scanDeltas.eq_def] at h; simp at h
        · rw [scanDeltas.eq_def] at h; simp at h
        by_cases hk : b1 = 0 ∧ b2 = 128
        · obtain ⟨rfl, rfl⟩ := hk
          rcases rest2 with _ | ⟨c1, _ | ⟨c2, _ | ⟨c3, _ | ⟨c4, rest3⟩⟩⟩⟩
          · rw [scanDeltas.eq_def] at h; simp at h
          · rw [scanDeltas.eq_def] at h; simp at h
          · rw [scanDeltas.eq_def] at h; simp at h
          · rw [scanDeltas.eq_def] at h; simp at h
          by_cases hk2 : c1 = 0 ∧ c2 = 0 ∧ c3 = 0 ∧ c4 = 128
          · obtain ⟨rfl, rfl, rfl, rfl⟩ := hk2
            rcases rest3 with _ | ⟨d1, _ | ⟨d2, _ | ⟨d3, _ | ⟨d4, _ | ⟨d5, _ | ⟨d6, _ | ⟨d7, _ | ⟨d8, rest4⟩⟩⟩⟩⟩⟩⟩⟩
            · rw [scanDeltas.eq_def] at h; simp at h
            · rw [scanDeltas.eq_def] at h; simp at h
            · rw [scanDeltas.eq_def] at h; simp at h
            · rw [scanDeltas.eq_def] at h; simp at h
            · rw [scanDeltas.eq_def] at h; simp at h
            · rw [scanDeltas.eq_def] at h; simp at h
            · rw [scanDeltas.eq_def] at h; simp at h
            · rw [scanDeltas.eq_def] at h; simp at h
            rw [scanDeltas.eq_def] at h
            cases hsd : scanDeltas n rest4 with
            | none => simp [hsd] at h
            | some ds' =>
              simp [hsd] at h
              subst h
              simp only [cumsumFrom, List.all_cons, Bool.and_eq_true] at hr
              have key := ih rest4 (last + sint64le d1 d2 d3 d4 d5 d6 d7 d8) ds' hsd hr.2
              rw [apLoop.eq_def]
              simp [key, hr.1, Except.map, cumsumFrom]
          · rw [scanDeltas.eq_def] at h
            cases hsd : scanDeltas n rest3 with
            | none => simp [hk2, hsd] at h
            | some ds' =>
              simp [hk2, hsd] at h
              subst h
              simp only [cumsumFrom, List.all_cons, Bool.and_eq_true] at hr
              have key := ih rest3 (last + sint32le c1 c2 c3 c4) ds' hsd hr.2
              rw [apLoop.eq_def]
              simp [hk2, key, hr.1, Except.map, cumsumFrom]
        · rw [scanDeltas.eq_def] at h
          cases hsd : scanDeltas n rest2 with
          | none => simp [hk, hsd] at h
          | some ds' =>
            simp [hk, hsd] at h
            subst h
            simp only [cumsumFrom, List.all_cons, Bool.and_eq_true] at hr
            have key := ih rest2 (last + sint16le b1 b2) ds' hsd hr.2
            rw [apLoop.eq_def]
            simp [hk, key, hr.1, Except.map, cumsumFrom]
      · rw [scanDeltas.eq_def] at h
        cases hsd : scanDeltas n rest with
        | none => simp [hb, hsd] at h
        | some ds' =>
          simp [hb, hsd] at h
          subst h
          simp only [cumsumFrom, List.all_cons, Bool.and_eq_true] at hr
          have key := ih rest (last + sint8 b) ds' hsd hr.2
          rw [apLoop.eq_def]
          simp [hb, key, hr.1, Except.map, cumsumFrom]

/-- A fully well-formed stream, with count set to its exact number of
deltas, is within the domain of the counted spec-side walk. -/
theorem parseAll_scanDeltas :
    ∀ (N : Nat) (s : List Nat) (ds : List Int), s.length ≤ N →
      parseAll s = some ds → scanDeltas ds.length s = some ds := by
  intro N
  induction N with
  | zero =>
    intro s ds hlen h
    have hs : s = [] := List.length_eq_zero.mp (Nat.le_zero.mp hlen)
    subst hs
    rw [parseAll.eq_def] at h
    simp at h
    subst h
    rfl
  | succ N ih =>
    intro s ds hlen h
    cases s with
    | nil =>
      rw [parseAll.eq_def] at h
      simp at h
      subst h
      rfl
    | cons b rest =>
      by_cases hb : b = 128
      · subst hb
        rcases rest with _ | ⟨b1, _ | ⟨b2, rest2⟩⟩
        · rw [parseAll.eq_def] at h; simp at h
        · rw [parseAll.eq_def] at h; simp at h
        by_cases hk : b1 = 0 ∧ b2 = 128
        · obtain ⟨rfl, rfl⟩ := hk
          rcases rest2 with _ | ⟨c1, _ | ⟨c2, _ | ⟨c3, _ | ⟨c4, rest3⟩⟩⟩⟩
          · rw [parseAll.eq_def] at h; simp at h
          · rw [parseAll.eq_def] at h; simp at h
          · rw [parseAll.eq_def] at h; simp at h
          · rw [parseAll.eq_def] at h; simp at h
          by_cases hk2 : c1 = 0 ∧ c2 = 0 ∧ c3 = 0 ∧ c4 = 128
          · obtain ⟨rfl, rfl, rfl, rfl⟩ := hk2
            rcases rest3 with _ | ⟨d1, _ | ⟨d2, _ | ⟨d3, _ | ⟨d4, _ | ⟨d5, _ | ⟨d6, _ | ⟨d7, _ | ⟨d8, rest4⟩⟩⟩⟩⟩⟩⟩⟩
            · rw [parseAll.eq_def] at h; simp at h
            · rw [parseAll.eq_def] at h; simp at h
            · rw [parseAll.eq_def] at h; simp at h
            · rw [parseAll.eq_def] at h; simp at h
            · rw [parseAll.eq_def] at h; simp at h
            · rw [parseAll.eq_def] at h; simp at h
            · rw [parseAll.eq_def] at h; simp at h
            · rw [parseAll.eq_def] at h; simp at h
            rw [parseAll.eq_def] at h
            cases hp : parseAll rest4 with
            | none => simp [hp] at h
            | some ds' =>
              simp [hp] at h
              subst h
              have h1 : rest4.length ≤ N := by
                simp only [List.length_cons] at hlen
                omega
              have key := ih rest4 ds' h1 hp
              simp only [List.length_cons]
              rw [scanDeltas.eq_def]
              simp [key]
          · rw [parseAll.eq_def] at h
            cases hp : parseAll rest3 with
            | none => simp [hk2, hp] at h
            | some ds' =>
              simp [hk2, hp] at h
              subst h
              have h1 : rest3.length ≤ N := by
                simp only [List.length_cons] at hlen
                omega
              have key := ih rest3 ds' h1 hp
              simp only [List.length_cons]
              rw [scanDeltas.eq_def]
              simp [hk2, key]
        · rw [parseAll.eq_def] at h
          cases hp : parseAll rest2 with
          | none => simp [hk, hp] at h
          | some ds' =>
            simp [hk, hp] at h
            subst h
            have h1 : rest2.length ≤ N := by
              simp only [List.length_cons] at hlen
              omega
            have key := ih rest2 ds' h1 hp
            simp only [List.length_cons]
            rw [scanDeltas.eq_def]
            simp [hk, key]
      · rw [parseAll.eq_def] at h
        cases hp : parseAll rest with
        | none => simp [hb, hp] at h
        | some ds' =>
          simp [hb, hp] at h
          subst h
          have h1 : rest.length ≤ N := by
            simp only [List.length_cons] at hlen
            omega
          have key := ih rest ds' h1 hp
          simp only [List.length_cons]
          rw [scanDeltas.eq_def]
          simp [hb, key]

/-- Unfolding of the numpy decoder on a non-escape head byte: the byte
joins the `int8` prefix of the current segment, consing its delta. -/
theorem anDeltas_cons :
    ∀ (fuel : Nat) (b : Nat) (rest : List Nat), b ≠ 128 → 0 < fuel →
      anDeltas fuel (b :: rest) = (anDeltas fuel rest).map (fun ds => sint8 b :: ds) := by
  intro fuel b rest hb hf
  cases fuel with
  | zero => exact absurd hf (Nat.lt_irrefl 0)
  | succ fuel =>
    have hbne : (b != 128) = true := by simpa using hb
    conv_lhs => rw [anDeltas.eq_def]
    conv_rhs => rw [anDeltas.eq_def]
    simp only [List.takeWhile_cons, List.dropWhile_cons, hbne, if_true]
    rcases hw : rest.dropWhile (fun b => b != 128) with _ | ⟨e, _ | ⟨b1, _ | ⟨b2, rest2⟩⟩⟩
    · simp [Except.map]
    · simp [Except.map]
    · simp [Except.map]
    by_cases hk : b1 = 0 ∧ b2 = 128
    · rcases rest2 with _ | ⟨c1, _ | ⟨c2, _ | ⟨c3, _ | ⟨c4, rest3⟩⟩⟩⟩
      · simp [hk, Except.map]
      · simp [hk, Except.map]
      · simp [hk, Except.map]
      · simp [hk, Except.map]
      by_cases hk2 : c1 = 0 ∧ c2 = 0 ∧ c3 = 0 ∧ c4 = 128
      · rcases rest3 with _ | ⟨d1, _ | ⟨d2, _ | ⟨d3, _ | ⟨d4, _ | ⟨d5, _ | ⟨d6, _ | ⟨d7, _ | ⟨d8, rest4⟩⟩⟩⟩⟩⟩⟩⟩
        · simp [hk, hk2, Except.map]
        · simp [hk, hk2, Except.map]
        · simp [hk, hk2, Except.map]
        · simp [hk, hk2, Except.map]
        · simp [hk, hk2, Except.map]
        · simp [hk, hk2, Except.map]
        · simp [hk, hk2, Except.map]
        · simp [hk, hk2, Except.map]
        cases hda : anDeltas fuel rest4 <;> simp [hk, hk2, hda, Except.map]
      · cases hda : anDeltas fuel rest3 <;> simp [hk, hk2, hda, Except.map]
    · cases hda : anDeltas fuel rest2 <;> simp [hk, hda, Except.map]

/-- The numpy decoder recovers exactly the deltas of a fully well-formed
stream (with ample fuel). -/
theorem anDeltas_complete :
    ∀ (N : Nat) (s : List Nat) (ds : List Int) (fuel : Nat), s.length ≤ N →
      parseAll s = some ds → s.length < fuel → anDeltas fuel s = .ok ds := by
  intro N
  induction N with
  | zero =>
    intro s ds fuel hlen h hf
    have hs : s = [] := List.length_eq_zero.mp (Nat.le_zero.mp hlen)
    subst hs
    rw [parseAll.eq_def] at h
    simp at h
    subst h
    cases fuel with
    | zero => exact absurd hf (Nat.not_lt_zero _)
    | succ fuel => rw [anDeltas.eq_def]; simp
  | succ N ih =>
    intro s ds fuel hlen h hf
    cases s with
    | nil =>
      rw [parseAll.eq_def] at h
      simp at h
      subst h
      cases fuel with
      | zero => exact absurd hf (Nat.not_lt_zero _)
      | succ fuel => rw [anDeltas.eq_def]; simp
    | cons b rest =>
      cases fuel with
      | zero => exact absurd hf (Nat.not_lt_zero _)
      | succ fuel =>
      by_cases hb : b = 128
      · subst hb
        rcases rest with _ | ⟨b1, _ | ⟨b2, rest2⟩⟩
        · rw [parseAll.eq_def] at h; simp at h
        · rw [parseAll.eq_def] at h; simp at h
        by_cases hk : b1 = 0 ∧ b2 = 128
        · obtain ⟨rfl, rfl⟩ := hk
          rcases rest2 with _ | ⟨c1, _ | ⟨c2, _ | ⟨c3, _ | ⟨c4, rest3⟩⟩⟩⟩
          · rw [parseAll.eq_def] at h; simp at h
          · rw [parseAll.eq_def] at h; simp at h
          · rw [parseAll.eq_def] at h; simp at h
          · rw [parseAll.eq_def] at h; simp at h
          by_cases hk2 : c1 = 0 ∧ c2 = 0 ∧ c3 = 0 ∧ c4 = 128
          · obtain ⟨rfl, rfl, rfl, rfl⟩ := hk2
            rcases rest3 with _ | ⟨d1, _ | ⟨d2, _ | ⟨d3, _ | ⟨d4, _ | ⟨d5, _ | ⟨d6, _ | ⟨d7, _ | ⟨d8, rest4⟩⟩⟩⟩⟩⟩⟩⟩
            · rw [parseAll.eq_def] at h; simp at h
            · rw [parseAll.eq_def] at h; simp at h
            · rw [parseAll.eq_def] at h; simp at h
            · rw [parseAll.eq_def] at h; simp at h
            · rw [parseAll.eq_def] at h; simp at h
            · rw [parseAll.eq_def] at h; simp at h
            · rw [parseAll.eq_def] at h; simp at h
            · rw [parseAll.eq_def] at h; simp at h
            rw [parseAll.eq_def] at h
            cases hp : parseAll rest4 with
            | none => simp [hp] at h
            | some ds' =>
              simp [hp] at h
              subst h
              have h1 : rest4.length ≤ N := by
                simp only [List.length_cons] at hlen
                omega
              have h2 : rest4.length < fuel := by
                simp only [List.length_cons] at hf
                omega
              have key := ih rest4 ds' fuel h1 hp h2
              rw [anDeltas.eq_def]
              simp [List.takeWhile_cons, List.dropWhile_cons, key, Except.map]
          · rw [parseAll.eq_def] at h
            cases hp : parseAll rest3 with
            | none => simp [hk2, hp] at h
            | some ds' =>
              simp [hk2, hp] at h
              subst h
              have h1 : rest3.length ≤ N := by
                simp only [List.length_cons] at hlen
                omega
              have h2 : rest3.length < fuel := by
                simp only [List.length_cons] at hf
                omega
              have key := ih rest3 ds' fuel h1 hp h2
              rw [anDeltas.eq_def]
              simp [List.takeWhile_cons, List.dropWhile_cons, hk2, key, Except.map]
        · rw [parseAll.eq_def] at h
          cases hp : parseAll rest2 with
          | none => simp [hk, hp] at h
          | some ds' =>
            simp [hk, hp] at h
            subst h
            have h1 : rest2.length ≤ N := by
              simp only [List.length_cons] at hlen
              omega
            have h2 : rest2.length < fuel := by
              simp only [List.length_cons] at hf
              omega
            have key := ih rest2 ds' fuel h1 hp h2
            rw [anDeltas.eq_def]
            simp [List.takeWhile_cons, List.dropWhile_cons, hk, key, Except.map]
      · rw [parseAll.eq_def] at h
        cases hp : parseAll rest with
        | none => simp [hb, hp] at h
        | some ds' =>
          simp [hb, hp] at h
          subst h
          have h1 : rest.length ≤ N := by
            simp only [List.length_cons] at hlen
            omega
          have h2 : rest.length < fuel + 1 := by
            simp only [List.length_cons] at hf
            omega
          rw [anDeltas_cons (fuel + 1) b rest hb (Nat.succ_pos _),
            ih rest ds' (fuel + 1) h1 hp h2]
          rfl

/-! ### Claim C1 -/

/-- C1 (counterexample): two ways running the claimed total decode can
raise where the claim allows none.  On the buffer consisting of the
single escape byte `0x80` with requested count 1, `analysePython` raises
a `struct.error` (it unpacks the empty 2-byte peek slice as `"<h"`), so
running out of input *is* an error; and on the fully well-formed
`overflowStream` (the spec-side walk decodes it to two maximal 64-bit
deltas) the second running sum `2 ^ 64 - 2` no longer fits the `int64`
output array, so the store `dataOut[1]` raises an `OverflowError`
instead of producing the running-sum reconstruction. -/
theorem C1_counterexample :
    analysePython [128] 1 = Except.error CbfErr.structError ∧
    analysePython overflowStream 2 = Except.error CbfErr.overflow ∧
    scanDeltas 2 overflowStream =
      some [9223372036854775807, 9223372036854775807] := by
  refine ⟨by decide, by decide, by decide⟩

/-- C1 (amended): byte-offset decode produces the running-sum
reconstruction of the delta stream read byte-by-byte, with the claimed
escape widths, stopping as soon as `count` values have been produced or
the input is exhausted at a value boundary — and running out of input at
a value boundary is not an error; but an input that ends in the middle
of a multi-byte delta (the `none` case of the spec-side walk
`scanDeltas`) raises a `struct.error`, and a running sum that leaves the
signed 64-bit range raises an `OverflowError` at the `int64` output
store.  The returned array is zero-padded to length `count`. -/
theorem C1_byte_offset_decode (s : List Nat) (n : Nat) (ds : List Int)
    (h : scanDeltas n s = some ds)
    (hr : (cumsumFrom 0 ds).all fitsInt64 = true) :
    analysePython s n = .ok (cumsumFrom 0 ds ++ List.replicate (n - ds.length) 0) := by
  unfold analysePython
  rw [apLoop_scanDeltas n s 0 ds h hr]
  simp [Except.map, length_cumsumFrom]

/-- C1 (witness): a stream with an 8-bit delta 5 and a 16-bit delta 513,
decoded with count 3, yields the two running sums and one padding zero. -/
theorem C1_witness :
    analysePython [5, 128, 1, 2] 3 =
      .ok (cumsumFrom 0 [5, 513] ++ List.replicate (3 - ([5, 513] : List Int).length) 0) :=
  C1_byte_offset_decode [5, 128, 1, 2] 3 [5, 513] (by decide) (by decide)

/-! ### Claim C2 -/

/-- C2 (counterexample): the two decoders differ on the buffer `[1, 1]`
with requested size 1 (the sequential decoder stops after one value
while the numpy decoder, which ignores the size argument, decodes both
deltas), and they also differ on the fully well-formed `overflowStream`
even with the matching size 2: the sequential decoder raises
`OverflowError` at the `int64` store while the numpy decoder silently
wraps its `int64` cumulative sum to `-2`. -/
theorem C2_counterexample :
    analysePython [1, 1] 1 ≠ analyseNumpy [1, 1] ∧
    analysePython overflowStream 2 = .error CbfErr.overflow ∧
    analyseNumpy overflowStream = .ok [9223372036854775807, -2] := by
  refine ⟨?_, by decide, by decide⟩
  have h1 : analysePython [1, 1] 1 = .ok [1] := rfl
  have h2 : analyseNumpy [1, 1] = .ok [1, 2] := rfl
  rw [h1, h2]
  simp

/-- C2 (amended): the reference sequential decoder and the numpy decoder
produce identical output whenever the buffer is a fully well-formed
delta stream, the requested size equals its number of deltas, and every
running sum stays within the signed 64-bit range — which covers the four
listed agreement cases (all-zero stream, increasing-by-1 stream, one
delta of each width, empty stream with count 0).  In general the numpy
decoder ignores the requested size and returns one value per delta of
the whole stream, and on a well-formed stream whose running sums
overflow `int64` the sequential decoder raises `OverflowError` while the
numpy decoder wraps. -/
theorem C2_decoder_agreement (s : List Nat) (ds : List Int)
    (h : parseAll s = some ds)
    (hr : (cumsumFrom 0 ds).all fitsInt64 = true) :
    analyseNumpy s = .ok (cumsumFrom 0 ds) ∧
      analysePython s ds.length = .ok (cumsumFrom 0 ds) := by
  constructor
  · unfold analyseNumpy
    rw [anDeltas_complete s.length s ds (s.length + 1) le_rfl h (Nat.lt_succ_self _)]
    simp [Except.map, cumsum64_eq_cumsum 0 ds hr]
  · have hs := parseAll_scanDeltas s.length s ds le_rfl h
    unfold analysePython
    rw [apLoop_scanDeltas ds.length s 0 ds hs hr]
    simp [Except.map, length_cumsumFrom]

/-- C2 (witness): both decoders agree on a stream holding one delta of
each of the four widths. -/
theorem C2_witness :
    analyseNumpy [5, 128, 52, 18, 128, 0, 128, 1, 0, 0, 0,
        128, 0, 128, 0, 0, 0, 128, 1, 2, 3, 4, 5, 6, 7, 8] =
      .ok (cumsumFrom 0 [5, 4660, 1, 578437695752307201]) ∧
    analysePython [5, 128, 52, 18, 128, 0, 128, 1, 0, 0, 0,
        128, 0, 128, 0, 0, 0, 128, 1, 2, 3, 4, 5, 6, 7, 8]
        ([(5 : Int), 4660, 1, 578437695752307201].length) =
      .ok (cumsumFrom 0 [5, 4660, 1, 578437695752307201]) :=
  C2_decoder_agreement _ [5, 4660, 1, 578437695752307201] (by decide) (by decide)

/-! ### Header-block reader lemmas -/

theorem getElem?_some_lt {α : Type _} {l : List α} {i : Nat} {a : α}
    (h : l[i]? = some a) : i < l.length := by
  by_contra hc
  push_neg at hc
  rw [List.getElem?_eq_none hc] at h
  cases h

theorem readBytes_length (data : List Nat) (p k : Nat) :
    (readBytes data p k).length = min k (data.length - p) := by
  simp [readBytes]

theorem readBytes_eq_slice (data : List Nat) (p k : Nat) :
    readBytes data p k = (data.drop p).take (readBytes data p k).length := by
  simp only [readBytes, List.length_take, List.length_drop]
  rw [List.take_eq_take]
  simp only [List.length_drop]
  omega

theorem slice_transfer (data : List Nat) (B : Nat) (block : List Nat)
    (hb : block = (data.drop B).take block.length) (i : Nat) (hi : i < block.length) :
    data[B + i]? = block[i]? := by
  conv_rhs => rw [hb]
  rw [List.getElem?_take, if_pos hi, List.getElem?_drop]

theorem take_one_head (l : List Nat) (b : Nat) (h : l.take 1 = [b]) : l[0]? = some b := by
  cases l with
  | nil => simp at h
  | cons a t =>
    simp only [List.take_succ_cons, List.take_zero, List.cons.injEq] at h
    simp [h.1]

theorem take_two_head (l : List Nat) (b c : Nat) (h : l.take 2 = [b, c]) :
    l[0]? = some b ∧ l[1]? = some c := by
  cases l with
  | nil => simp at h
  | cons a t =>
    cases t with
    | nil => simp at h
    | cons a2 t2 =>
      simp only [List.take_succ_cons, List.take_zero, List.cons.injEq, and_true] at h
      obtain ⟨rfl, rfl⟩ := h
      simp

theorem getLast?_spec (l : List Nat) (b : Nat) (h : l.getLast? = some b) :
    1 ≤ l.length ∧ l[l.length - 1]? = some b := by
  refine ⟨?_, ?_⟩
  · cases l with
    | nil => cases h
    | cons a t => simp
  · rw [← List.getLast?_eq_getElem?]
    exact h

theorem dropTail2_spec (l : List Nat) (h : l.drop (l.length - 2) = [125, 13]) :
    2 ≤ l.length ∧ l[l.length - 2]? = some 125 ∧ l[l.length - 1]? = some 13 := by
  have hlen2 : 2 ≤ l.length := by
    by_contra hc
    push_neg at hc
    have h0 : l.length - 2 = 0 := by omega
    rw [h0, List.drop_zero] at h
    rw [h] at hc
    simp at hc
  refine ⟨hlen2, ?_, ?_⟩
  · have h1 := List.getElem?_drop l (l.length - 2) 0
    rw [h] at h1
    simpa using h1.symm
  · have h1 := List.getElem?_drop l (l.length - 2) 1
    rw [h] at h1
    have harith : l.length - 2 + 1 = l.length - 1 := by omega
    rw [harith] at h1
    simpa using h1.symm

theorem findTerm_cons (b : Nat) (rest : List Nat) :
    findTerm (b :: rest) =
      if b = 125 ∧ rest.take 1 = [10] then some (0, 2)
      else if b = 125 ∧ rest.take 2 = [13, 10] then some (0, 3)
      else (findTerm rest).map (fun p => (p.1 + 1, p.2 + 1)) := rfl

/-- Leftmost-match characterisation of the terminator search. -/
theorem findTerm_spec :
    ∀ (l : List Nat) (st en : Nat), findTerm l = some (st, en) →
      (l[st]? = some 125 ∧ l[st + 1]? = some 10 ∧ en = st + 2) ∨
      (l[st]? = some 125 ∧ l[st + 1]? = some 13 ∧ l[st + 2]? = some 10 ∧ en = st + 3) := by
  intro l
  induction l with
  | nil => intro st en h; simp [findTerm] at h
  | cons b rest ih =>
    intro st en h
    rw [findTerm_cons] at h
    by_cases hc1 : b = 125 ∧ rest.take 1 = [10]
    · rw [if_pos hc1] at h
      simp only [Option.some.injEq, Prod.mk.injEq] at h
      obtain ⟨rfl, rfl⟩ := h
      left
      refine ⟨by simp [hc1.1], ?_, rfl⟩
      simpa using take_one_head rest 10 hc1.2
    · rw [if_neg hc1] at h
      by_cases hc2 : b = 125 ∧ rest.take 2 = [13, 10]
      · rw [if_pos hc2] at h
        simp only [Option.some.injEq, Prod.mk.injEq] at h
        obtain ⟨rfl, rfl⟩ := h
        right
        obtain ⟨h13, h10⟩ := take_two_head rest 13 10 hc2.2
        refine ⟨by simp [hc2.1], by simpa using h13, by simpa using h10, rfl⟩
      · rw [if_neg hc2] at h
        cases hf : findTerm rest with
        | none => rw [hf] at h; cases h
        | some p =>
          rw [hf] at h
          simp only [Option.map, Option.some.injEq, Prod.mk.injEq] at h
          obtain ⟨rfl, rfl⟩ := h
          rcases ih p.1 p.2 hf with ⟨ha, hb', hc⟩ | ⟨ha, hb', hc, hd⟩
          · left
            refine ⟨by simpa using ha, by simpa using hb', by omega⟩
          · right
            refine ⟨by simpa using ha, by simpa using hb', by simpa using hc, by omega⟩

theorem rhbLoop_succ (data : List Nat) (fuel : Nat) (block : List Nat) (blockSize : Nat)
    (acc : List Nat) (fp maxhs : Nat) :
    rhbLoop data (fuel + 1) block blockSize acc fp maxhs =
      match findTerm block with
      | some (st, en) =>
        .ok (blockSize - block.length + st, blockSize - block.length + en, blockSize, acc)
      | none =>
        if block.getLast? = some 125 ∧ (readBytes data fp BLOCKSIZE).take 1 = [10] then
          .ok (blockSize, blockSize + 1, blockSize, acc)
        else if block.getLast? = some 125 ∧ (readBytes data fp BLOCKSIZE).take 2 = [13, 10] then
          .ok (blockSize, blockSize + 2, blockSize, acc)
        else if block.drop (block.length - 2) = [125, 13] ∧
            (readBytes data fp BLOCKSIZE).take 1 = [10] then
          .ok (blockSize - 1, blockSize + 1, blockSize, acc)
        else if (readBytes data fp BLOCKSIZE).length = 0 ∨
            blockSize + (readBytes data fp BLOCKSIZE).length > maxhs then
          .error .malformed
        else
          rhbLoop data fuel (readBytes data fp BLOCKSIZE)
            (blockSize + (readBytes data fp BLOCKSIZE).length)
            (acc ++ readBytes data fp BLOCKSIZE)
            (fp + (readBytes data fp BLOCKSIZE).length) maxhs := rfl

/-- Whenever the chunk loop succeeds, the computed blob start is
immediately preceded in the underlying byte source by a valid terminator
(`}\n` or `}\r\n`). -/
theorem rhbLoop_term (data : List Nat) (pos0 : Nat) :
    ∀ (fuel : Nat) (block : List Nat) (blockSize : Nat) (acc : List Nat) (fp maxhs : Nat)
      (eb sb bsz : Nat) (acc2 : List Nat),
      fp = pos0 + blockSize →
      fp ≤ data.length →
      block.length ≤ blockSize →
      block = (data.drop (fp - block.length)).take block.length →
      rhbLoop data fuel block blockSize acc fp maxhs = .ok (eb, sb, bsz, acc2) →
      termValidAt data (pos0 + sb) := by
  intro fuel
  induction fuel with
  | zero =>
    intro block blockSize acc fp maxhs eb sb bsz acc2 _ _ _ _ h
    have h0 : rhbLoop data 0 block blockSize acc fp maxhs = .error .malformed := rfl
    rw [h0] at h
    cases h
  | succ fuel ih =>
    intro block blockSize acc fp maxhs eb sb bsz acc2 hfp hle hbs hblock h
    rw [rhbLoop_succ] at h
    cases hft : findTerm block with
    | some p =>
      obtain ⟨st, en⟩ := p
      rw [hft] at h
      simp only [] at h
      simp only [Except.ok.injEq, Prod.mk.injEq] at h
      obtain ⟨rfl, rfl, rfl, rfl⟩ := h
      rcases findTerm_spec block st en hft with ⟨h125, h10, rfl⟩ | ⟨h125, h13, h10, rfl⟩
      · have hstL := getElem?_some_lt h125
        have hst1L := getElem?_some_lt h10
        have ht1 : data[fp - block.length + st]? = some 125 :=
          (slice_transfer data (fp - block.length) block hblock st hstL).trans h125
        have ht2 : data[fp - block.length + (st + 1)]? = some 10 :=
          (slice_transfer data (fp - block.length) block hblock (st + 1) hst1L).trans h10
        constructor
        · have e : pos0 + (blockSize - block.length + (st + 2)) - 1 =
              fp - block.length + (st + 1) := by omega
          rw [e]
          exact ht2
        · left
          have e : pos0 + (blockSize - block.length + (st + 2)) - 2 =
              fp - block.length + st := by omega
          rw [e]
          exact ht1
      · have hstL := getElem?_some_lt h125
        have hst1L := getElem?_some_lt h13
        have hst2L := getElem?_some_lt h10
        have ht1 : data[fp - block.length + st]? = some 125 :=
          (slice_transfer data (fp - block.length) block hblock st hstL).trans h125
        have ht2 : data[fp - block.length + (st + 1)]? = some 13 :=
          (slice_transfer data (fp - block.length) block hblock (st + 1) hst1L).trans h13
        have ht3 : data[fp - block.length + (st + 2)]? = some 10 :=
          (slice_transfer data (fp - block.length) block hblock (st + 2) hst2L).trans h10
        refine ⟨?_, Or.inr ⟨?_, ?_⟩⟩
        · have e : pos0 + (blockSize - block.length + (st + 3)) - 1 =
              fp - block.length + (st + 2) := by omega
          rw [e]
          exact ht3
        · have e : pos0 + (blockSize - block.length + (st + 3)) - 2 =
              fp - block.length + (st + 1) := by omega
          rw [e]
          exact ht2
        · have e : pos0 + (blockSize - block.length + (st + 3)) - 3 =
              fp - block.length + st := by omega
          rw [e]
          exact ht1
    | none =>
      rw [hft] at h
      simp only [] at h
      by_cases hA : block.getLast? = some 125 ∧ (readBytes data fp BLOCKSIZE).take 1 = [10]
      · rw [if_pos hA] at h
        simp only [Except.ok.injEq, Prod.mk.injEq] at h
        obtain ⟨rfl, rfl, rfl, rfl⟩ := h
        obtain ⟨hlast, htake⟩ := hA
        obtain ⟨hL1, hlastE⟩ := getLast?_spec block 125 hlast
        have hnb0 : (readBytes data fp BLOCKSIZE)[0]? = some 10 := take_one_head _ 10 htake
        have hnbl := getElem?_some_lt hnb0
        have hfd10 : data[fp]? = some 10 := by
          have ht := slice_transfer data fp (readBytes data fp BLOCKSIZE)
            (readBytes_eq_slice data fp BLOCKSIZE) 0 hnbl
          rw [Nat.add_zero] at ht
          exact ht.trans hnb0
        have hfd125 : data[fp - 1]? = some 125 := by
          have ht := slice_transfer data (fp - block.length) block hblock
            (block.length - 1) (by omega)
          have e : fp - block.length + (block.length - 1) = fp - 1 := by omega
          rw [e] at ht
          exact ht.trans hlastE
        constructor
        · have e : pos0 + (blockSize + 1) - 1 = fp := by omega
          rw [e]
          exact hfd10
        · left
          have e : pos0 + (blockSize + 1) - 2 = fp - 1 := by omega
          rw [e]
          exact hfd125
      · rw [if_neg hA] at h
        by_cases hB : block.getLast? = some 125 ∧
            (readBytes data fp BLOCKSIZE).take 2 = [13, 10]
        · rw [if_pos hB] at h
          simp only [Except.ok.injEq, Prod.mk.injEq] at h
          obtain ⟨rfl, rfl, rfl, rfl⟩ := h
          obtain ⟨hlast, htake⟩ := hB
          obtain ⟨hL1, hlastE⟩ := getLast?_spec block 125 hlast
          obtain ⟨hnb0, hnb1⟩ := take_two_head _ 13 10 htake
          have hl0 := getElem?_some_lt hnb0
          have hl1 := getElem?_some_lt hnb1
          have hfd13 : data[fp]? = some 13 := by
            have ht := slice_transfer data fp (readBytes data fp BLOCKSIZE)
              (readBytes_eq_slice data fp BLOCKSIZE) 0 hl0
            rw [Nat.add_zero] at ht
            exact ht.trans hnb0
          have hfd10 : data[fp + 1]? = some 10 := by
            have ht := slice_transfer data fp (readBytes data fp BLOCKSIZE)
              (readBytes_eq_slice data fp BLOCKSIZE) 1 hl1
            exact ht.trans hnb1
          have hfd125 : data[fp - 1]? = some 125 := by
            have ht := slice_transfer data (fp - block.length) block hblock
              (block.length - 1) (by omega)
            have e : fp - block.length + (block.length - 1) = fp - 1 := by omega
            rw [e] at ht
            exact ht.trans hlastE
          refine ⟨?_, Or.inr ⟨?_, ?_⟩⟩
          · have e : pos0 + (blockSize + 2) - 1 = fp + 1 := by omega
            rw [e]
            exact hfd10
          · have e : pos0 + (blockSize + 2) - 2 = fp := by omega
            rw [e]
            exact hfd13
          · have e : pos0 + (blockSize + 2) - 3 = fp - 1 := by omega
            rw [e]
            exact hfd125
        · rw [if_neg hB] at h
          by_cases hC : block.drop (block.length - 2) = [125, 13] ∧
              (readBytes data fp BLOCKSIZE).take 1 = [10]
          · rw [if_pos hC] at h
            simp only [Except.ok.injEq, Prod.mk.injEq] at h
            obtain ⟨rfl, rfl, rfl, rfl⟩ := h
            obtain ⟨hdrop, htake⟩ := hC
            obtain ⟨hL2, h125E, h13E⟩ := dropTail2_spec block hdrop
            have hnb0 : (readBytes data fp BLOCKSIZE)[0]? = some 10 := take_one_head _ 10 htake
            have hnbl := getElem?_some_lt hnb0
            have hfd10 : data[fp]? = some 10 := by
              have ht := slice_transfer data fp (readBytes data fp BLOCKSIZE)
                (readBytes_eq_slice data fp BLOCKSIZE) 0 hnbl
              rw [Nat.add_zero] at ht
              exact ht.trans hnb0
            have hfd125 : data[fp - 2]? = some 125 := by
              have ht := slice_transfer data (fp - block.length) block hblock
                (block.length - 2) (by omega)
              have e : fp - block.length + (block.length - 2) = fp - 2 := by omega
              rw [e] at ht
              exact ht.trans h125E
            have hfd13 : data[fp - 1]? = some 13 := by
              have ht := slice_transfer data (fp - block.length) block hblock
                (block.length - 1) (by omega)
              have e : fp - block.length + (block.length - 1) = fp - 1 := by omega
              rw [e] at ht
              exact ht.trans h13E
            refine ⟨?_, Or.inr ⟨?_, ?_⟩⟩
            · have e : pos0 + (blockSize + 1) - 1 = fp := by omega
              rw [e]
              exact hfd10
            · have e : pos0 + (blockSize + 1) - 2 = fp - 1 := by omega
              rw [e]
              exact hfd13
            · have e : pos0 + (blockSize + 1) - 3 = fp - 2 := by omega
              rw [e]
              exact hfd125
          · rw [if_neg hC] at h
            by_cases hD : (readBytes data fp BLOCKSIZE).length = 0 ∨
                blockSize + (readBytes data fp BLOCKSIZE).length > maxhs
            · rw [if_pos hD] at h
              cases h
            · rw [if_neg hD] at h
              push_neg at hD
              obtain ⟨hnb0, _⟩ := hD
              have hrb := readBytes_length data fp BLOCKSIZE
              have hfple : fp + (readBytes data fp BLOCKSIZE).length ≤ data.length := by
                omega
              refine ih (readBytes data fp BLOCKSIZE)
                (blockSize + (readBytes data fp BLOCKSIZE).length)
                (acc ++ readBytes data fp BLOCKSIZE)
                (fp + (readBytes data fp BLOCKSIZE).length) maxhs
                eb sb bsz acc2 (by omega) hfple (by omega) ?_ h
              have e : fp + (readBytes data fp BLOCKSIZE).length -
                  (readBytes data fp BLOCKSIZE).length = fp := by omega
              rw [e]
              exact readBytes_eq_slice data fp BLOCKSIZE

theorem rhbFinish_error (data : List Nat) (pos : Nat) (block0 : List Nat) (bb1 maxhs : Nat)
    (e : RhbErr)
    (hl : rhbLoop data (data.length + 2) block0 block0.length block0 (pos + block0.length)
      maxhs = .error e) :
    rhbFinish data pos block0 bb1 maxhs = .error e := by
  unfold rhbFinish
  rw [hl]

theorem rhbFinish_ok (data : List Nat) (pos : Nat) (block0 : List Nat) (bb1 maxhs : Nat)
    (eb sb bsz : Nat) (acc2 : List Nat)
    (hl : rhbLoop data (data.length + 2) block0 block0.length block0 (pos + block0.length)
      maxhs = .ok (eb, sb, bsz, acc2)) :
    rhbFinish data pos block0 bb1 maxhs =
      if ((acc2.drop bb1).take (eb - bb1)).all (fun b => decide (b < 128)) then
        .ok (some ⟨(acc2.drop bb1).take (eb - bb1), bsz⟩, pos + sb)
      else .error .other := by
  unfold rhbFinish
  rw [hl]

/-- Success of the finishing stage locates the blob start right after a
valid terminator. -/
theorem rhbFinish_term (data : List Nat) (pos : Nat) (bb1 maxhs : Nat)
    (hbk : HeaderBlock) (npos : Nat)
    (hne : (readBytes data pos BLOCKSIZE).length ≠ 0)
    (hres : rhbFinish data pos (readBytes data pos BLOCKSIZE) bb1 maxhs =
      .ok (some hbk, npos)) :
    termValidAt data npos := by
  cases hl : rhbLoop data (data.length + 2) (readBytes data pos BLOCKSIZE)
      (readBytes data pos BLOCKSIZE).length (readBytes data pos BLOCKSIZE)
      (pos + (readBytes data pos BLOCKSIZE).length) maxhs with
  | error e =>
    rw [rhbFinish_error data pos _ bb1 maxhs e hl] at hres
    cases hres
  | ok r =>
    obtain ⟨eb, sb, bsz, acc2⟩ := r
    rw [rhbFinish_ok data pos _ bb1 maxhs eb sb bsz acc2 hl] at hres
    by_cases hascii : ((acc2.drop bb1).take (eb - bb1)).all (fun b => decide (b < 128))
    · rw [if_pos hascii] at hres
      simp only [Except.ok.injEq, Prod.mk.injEq, Option.some.injEq] at hres
      obtain ⟨-, rfl⟩ := hres
      have hrb := readBytes_length data pos BLOCKSIZE
      exact rhbLoop_term data pos (data.length + 2) (readBytes data pos BLOCKSIZE)
        (readBytes data pos BLOCKSIZE).length (readBytes data pos BLOCKSIZE)
        (pos + (readBytes data pos BLOCKSIZE).length) maxhs eb sb bsz acc2 rfl
        (by omega) le_rfl
        (by
          have e : pos + (readBytes data pos BLOCKSIZE).length -
              (readBytes data pos BLOCKSIZE).length = pos := by omega
          rw [e]
          exact readBytes_eq_slice data pos BLOCKSIZE) hl
    · rw [if_neg hascii] at hres
      cases hres

/-! ### Claim C3 -/

/-- C3: the header-block reader accepts a metadata block as terminated
only by the closing brace followed by an optional carriage return and a
mandatory line feed: whenever `read_header_block` succeeds, the bytes of
the source immediately before the returned data-blob position form `}\n`
or `}\r\n` — in particular a closing brace followed by a standalone
carriage return without a line feed is never treated as a terminator,
whether the bytes lie inside one chunk or at a chunk boundary. -/
theorem C3_terminator_only (data : List Nat) (pos : Nat) (hbk : HeaderBlock) (npos : Nat)
    (h : read_header_block data pos = .ok (some hbk, npos)) :
    termValidAt data npos := by
  unfold read_header_block at h
  by_cases h0 : (readBytes data pos BLOCKSIZE).length = 0
  · rw [if_pos h0] at h
    simp at h
  · rw [if_neg h0] at h
    cases hidx : (readBytes data pos BLOCKSIZE).findIdx? (fun b => b == 123) with
    | none =>
      rw [hidx] at h
      simp only [] at h
      by_cases hw : (readBytes data pos BLOCKSIZE).length < BLOCKSIZE ∧
          allWhitespace (readBytes data pos BLOCKSIZE)
      · rw [if_pos hw] at h
        simp at h
      · rw [if_neg hw] at h
        cases h
    | some bb =>
      rw [hidx] at h
      simp only [] at h
      by_cases hws : allWhitespace ((readBytes data pos BLOCKSIZE).take bb) = false
      · rw [if_pos hws] at h
        cases h
      · rw [if_neg hws] at h
        cases hsub : findSubstrFrom edfHeaderSizeKey (readBytes data pos BLOCKSIZE) (bb + 1) with
        | none =>
          rw [hsub] at h
          simp only [] at h
          exact rhbFinish_term data pos (bb + 1) MAX_HEADER_SIZE0 hbk npos h0 h
        | some st =>
          rw [hsub] at h
          simp only [] at h
          cases heq : findByteFrom (readBytes data pos BLOCKSIZE) 61
              (st + edfHeaderSizeKey.length) with
          | none =>
            rw [heq] at h
            simp only [] at h
            cases h
          | some eqp =>
            rw [heq] at h
            simp only [] at h
            cases hsc : findByteFrom (readBytes data pos BLOCKSIZE) 59 (eqp + 1) with
            | none =>
              rw [hsc] at h
              simp only [] at h
              cases h
            | some enp =>
              rw [hsc] at h
              simp only [] at h
              cases hint : pyIntBytes
                  (((readBytes data pos BLOCKSIZE).drop (eqp + 1)).take (enp - (eqp + 1))) with
              | none =>
                rw [hint] at h
                simp only [] at h
                exact rhbFinish_term data pos (bb + 1) MAX_HEADER_SIZE0 hbk npos h0 h
              | some v =>
                rw [hint] at h
                simp only [] at h
                exact rhbFinish_term data pos (bb + 1) _ hbk npos h0 h

/-- C3 (witness): a small frame `{A = B ;}\n` is accepted with the blob
starting at offset 10, and the bytes before offset 10 are `}\n`. -/
theorem C3_witness : termValidAt (strBytes "\x7bA = B ;\x7d\n") 10 :=
  C3_terminator_only (strBytes "\x7bA = B ;\x7d\n") 0 ⟨strBytes "A = B ;", 10⟩ 10 (by decide)

/-! ### Claim C4 -/

/-- C4: evaluation of the header-block reader at the failing input.  In
`c4SplitData` the terminator `}\n` is split across the 512-byte chunk
boundary and the returned metadata text *includes* the closing brace
(`end_block` is set to `block_size` instead of `block_size - 1`); in
`c4InData` the terminator lies inside one chunk and the text stops before
the closing brace.  The blob start positions are correct in both.  The
two frames' decoded texts therefore differ by a trailing `}` byte, which
refutes the claimed placement-independence. -/
theorem C4_boundary_brace_divergence :
    read_header_block c4SplitData 0 =
      .ok (some ⟨List.replicate 510 32 ++ [125], 512⟩, 513) ∧
    read_header_block c4InData 0 =
      .ok (some ⟨List.replicate 509 32, 512⟩, 512) := by
  constructor
  · decide
  · decide

/-! ### Claim C7 -/

/-- Lookup after a Python-dict assignment. -/
theorem dictGet_dictSet {α β : Type _} [DecidableEq α] (d : List (α × β)) (k k' : α) (v : β) :
    dictGet? (dictSet d k v) k' = if k = k' then some v else dictGet? d k' := by
  induction d with
  | nil => simp [dictSet, dictGet?]
  | cons kv t ih =>
    obtain ⟨k0, v0⟩ := kv
    by_cases h0 : k0 = k
    · subst h0
      rw [dictSet, if_pos rfl, dictGet?, dictGet?]
      by_cases h1 : k0 = k' <;> simp [h1]
    · rw [dictSet, if_neg h0, dictGet?, ih, dictGet?]
      by_cases h1 : k0 = k'
      · have h2 : ¬(k = k') := fun h => h0 (h1.trans h.symm)
        simp [h1, h2]
      · simp [h1]

/-- The unguarded `capsHeader[key.upper()] = key` loop of
`_create_header` resolves each capitalised key to the latest colliding
original key. -/
theorem capsFold_get (header : List (List Char × List Char))
    (c0 : List (List Char × List Char)) (k : List Char) :
    dictGet? (header.foldl (fun c kv => dictSet c (upperChars kv.1) kv.1) c0) k =
      (((header.reverse.find? (fun kv => upperChars kv.1 == k)).map Prod.fst).or
        (dictGet? c0 k)) := by
  induction header generalizing c0 with
  | nil => simp
  | cons kv t ih =>
    rw [List.foldl_cons, ih, List.reverse_cons, List.find?_append]
    cases hf : t.reverse.find? (fun kv => upperChars kv.1 == k) with
    | some kv' => simp [hf]
    | none =>
      rw [dictGet_dictSet]
      by_cases hk : upperChars kv.1 = k
      · simp [hf, hk, List.find?_cons]
      · simp [hf, hk, List.find?_cons]

/-- The guarded `if upperkey not in capsHeader` loop of
`_compute_capsheader` resolves each capitalised key to the earliest
colliding original key. -/
theorem ccFold_get (header : List (List Char × List Char))
    (c0 : List (List Char × List Char)) (k : List Char) :
    dictGet? (header.foldl
        (fun c kv => if (dictGet? c (upperChars kv.1)).isSome then c
          else dictSet c (upperChars kv.1) kv.1) c0) k =
      ((dictGet? c0 k).or
        ((header.find? (fun kv => upperChars kv.1 == k)).map Prod.fst)) := by
  induction header generalizing c0 with
  | nil => simp
  | cons kv t ih =>
    rw [List.foldl_cons, ih]
    by_cases hk : upperChars kv.1 = k
    · subst hk
      cases hg : dictGet? c0 (upperChars kv.1) with
      | some v => simp [hg, dictGet_dictSet, List.find?_cons]
      | none => simp [hg, dictGet_dictSet, List.find?_cons]
    · cases hg : dictGet? c0 (upperChars kv.1) with
      | some v => simp [hg, hk, List.find?_cons]
      | none => simp [hg, dictGet_dictSet, hk, List.find?_cons]

/-- C7 (counterexample): parsing `Key = a ;KEY = b` stores both keys
with their original casing in order, but the case-insensitive index
built by `_create_header` resolves `KEY` to the *last-seen* original key
`KEY` (value `b`), not the first-seen `Key`. -/
theorem C7_counterexample :
    (create_header ("Key = a ;KEY = b".data)).1 =
      [(("Key".data), ("a".data)), (("KEY".data), ("b".data))] ∧
    dictGet? (create_header ("Key = a ;KEY = b".data)).2 ("KEY".data) =
      some ("KEY".data) := by
  constructor
  · decide
  · decide

/-- C7 (amended): for every header text and capitalised key, the index
returned by `_create_header` resolves to the last header key with that
capitalisation, while the separate `_compute_capsheader` helper (not used
by the parsing path) resolves to the first; in both the resolved entry
is an original-casing key of the stored mapping. -/
theorem C7_caps_resolution (hstr : List Char) (k : List Char) :
    dictGet? (create_header hstr).2 k =
      ((create_header hstr).1.reverse.find? (fun kv => upperChars kv.1 == k)).map Prod.fst ∧
    dictGet? (compute_capsheader (create_header hstr).1) k =
      ((create_header hstr).1.find? (fun kv => upperChars kv.1 == k)).map Prod.fst := by
  constructor
  · have h := capsFold_get (headerOf hstr) [] k
    simpa [create_header, capsOfHeader, dictGet?] using h
  · have h := ccFold_get (headerOf hstr) [] k
    simpa [create_header, compute_capsheader, dictGet?] using h

/-! ### Claim C8 -/

/-- C8 (counterexample): a parsed header that declares only `Size = 4`
(no byte-order key) makes metadata extraction raise an uncaught
`KeyError` at `capsHeader['BYTEORDER']` instead of degrading with a
warning. -/
theorem C8_counterexample :
    extract_header_metadata (create_header ("Size = 4 ;".data)).1
      (create_header ("Size = 4 ;".data)).2 = .error () := by
  decide

/-- C8 (amended): missing size, element-type, compression and dimension
keys are tolerated with logged defaults (a header carrying only a
byte-order key extracts successfully, defaulting the element type to
2-byte uint16, rank 0, and back-filling the blob size), but a missing
byte-order key always makes `_extract_header_metadata` raise an uncaught
`KeyError`. -/
theorem C8_missing_keys (header caps : List (List Char × List Char)) :
    (dictGet? caps ("BYTEORDER".data) = none →
      extract_header_metadata header caps = .error ()) ∧
    extract_header_metadata [(("ByteOrder".data), ("LowByteFirst".data))]
      [(("BYTEORDER".data), ("ByteOrder".data))] =
      .ok ⟨some 2, [], 2, none, some false, 2⟩ := by
  constructor
  · intro h
    unfold extract_header_metadata
    cases extractBlobsize header caps with
    | error e => rfl
    | ok b =>
      simp only []
      cases get_data_rank caps with
      | error e => rfl
      | ok r =>
        simp only []
        cases get_data_shape r header caps with
        | error e => rfl
        | ok s =>
          simp only []
          cases extractBpp header caps with
          | error e => rfl
          | ok bpp =>
            simp only []
            cases extractCompression header caps with
            | error e => rfl
            | ok comp =>
              simp only []
              rw [h]
  · decide

/-- C8 (witness): the key-error case on a size-only header and the
degrading case on a byte-order-only header. -/
theorem C8_witness :
    extract_header_metadata [(("Size".data), ("4".data))] [(("SIZE".data), ("Size".data))] =
      .error () ∧
    extract_header_metadata [(("ByteOrder".data), ("LowByteFirst".data))]
      [(("BYTEORDER".data), ("ByteOrder".data))] =
      .ok ⟨some 2, [], 2, none, some false, 2⟩ :=
  ⟨(C8_missing_keys [(("Size".data), ("4".data))] [(("SIZE".data), ("Size".data))]).1
      (by decide),
   (C8_missing_keys [] []).2⟩

/-! ### Claim C10 -/

/-- C10: whenever the declared byte-order value contains neither `Low`
nor `High`, neither assignment in `_extract_header_metadata` fires, so
the swap decision stays at its `None` initialisation and `swap_needed()`
returns `None` — regardless of the element width. -/
theorem C10_swap_none (header caps : List (List Char × List Char)) (m : FrameMeta)
    (k bo : List Char)
    (hk : dictGet? caps ("BYTEORDER".data) = some k)
    (hbo : dictGet? header k = some bo)
    (hHigh : hasSubChars ("High".data) bo = false)
    (hLow : hasSubChars ("Low".data) bo = false)
    (hok : extract_header_metadata header caps = .ok m) :
    swap_needed m = none := by
  unfold extract_header_metadata at hok
  cases h1 : extractBlobsize header caps with
  | error e => rw [h1] at hok; simp only [] at hok; exact Except.noConfusion hok
  | ok b =>
    rw [h1] at hok
    simp only [] at hok
    cases h2 : get_data_rank caps with
    | error e => rw [h2] at hok; simp only [] at hok; exact Except.noConfusion hok
    | ok r =>
      rw [h2] at hok
      simp only [] at hok
      cases h3 : get_data_shape r header caps with
      | error e => rw [h3] at hok; simp only [] at hok; exact Except.noConfusion hok
      | ok s =>
        rw [h3] at hok
        simp only [] at hok
        cases h4 : extractBpp header caps with
        | error e => rw [h4] at hok; simp only [] at hok; exact Except.noConfusion hok
        | ok bpp =>
          rw [h4] at hok
          simp only [] at hok
          cases h5 : extractCompression header caps with
          | error e => rw [h5] at hok; simp only [] at hok; exact Except.noConfusion hok
          | ok comp =>
            rw [h5] at hok
            simp only [] at hok
            rw [hk] at hok
            simp only [] at hok
            rw [hbo] at hok
            simp only [Except.ok.injEq] at hok
            subst hok
            simp [swap_needed, numpy_little_endian, hHigh, hLow]

/-- C10 (witness): a 2-byte-per-element frame whose byte-order value is
`native` has no swap decision. -/
theorem C10_witness :
    swap_needed ⟨some 2, [], 2, none, none, 2⟩ = none :=
  C10_swap_none
    [(("ByteOrder".data), ("native".data)), (("DataType".data), ("SignedShort".data))]
    [(("BYTEORDER".data), ("ByteOrder".data)), (("DATATYPE".data), ("DataType".data))]
    ⟨some 2, [], 2, none, none, 2⟩ ("ByteOrder".data) ("native".data)
    (by decide) (by decide) (by decide) (by decide) (by decide)

/-! ### Claims C5 and C6: the directory-building pass -/

/-- C5: whenever a header block parses and extracts but declares a blob
size reaching past the end of the data (`seek(blobsize - 1)` lands at or
beyond EOF so `read(1)` returns nothing), the pass appends that frame
with `incomplete_data` set, reports the container incomplete, stops, and
raises nothing — every previously collected frame is returned
unchanged. -/
theorem C5_truncation_stops (data : List Nat) (pos fuel npos : Nat) (frames : List EFrame)
    (hb : HeaderBlock) (m : FrameMeta) (bs : Int)
    (hrb : read_header_block data pos = .ok (some hb, npos))
    (hm : extract_header_metadata (create_header (bytesToChars hb.header_block)).1
      (create_header (bytesToChars hb.header_block)).2 = .ok m)
    (hbs : m.blobsize = some bs)
    (hnn : 0 ≤ (npos : Int) + bs - 1)
    (htr : data.length ≤ ((npos : Int) + bs - 1).toNat) :
    readheaderLoop data (fuel + 1) pos frames =
      .ok (frames ++ [⟨(create_header (bytesToChars hb.header_block)).1, m.blobsize, npos,
        frames.length, m.shape, m.bpp, m.compression, m.swap, m.size, true⟩], true) := by
  rw [readheaderLoop.eq_def]
  simp only []
  rw [hrb]
  simp only []
  rw [hm]
  simp only []
  rw [hbs]
  simp only []
  rw [if_neg (by omega), if_neg (by omega)]

/-- C5 (witness): on the concrete two-frame container `c5Data` the pass
returns the complete first frame plus the truncated second frame
(declared size 100, 2 bytes remaining) marked incomplete, with the
container flag set. -/
theorem C5_witness :
    readheaderLoop c5Data (163 + 1) 82 [c5Frame1] =
      .ok ([c5Frame1] ++ [⟨(create_header (bytesToChars c5Hb2.header_block)).1,
        c5Meta2.blobsize, 162, [c5Frame1].length, c5Meta2.shape, c5Meta2.bpp,
        c5Meta2.compression, c5Meta2.swap, c5Meta2.size, true⟩], true) ∧
    readheader c5Data = .ok ([c5Frame1, c5Frame2], true) ∧
    c5Frame1.incomplete_data = false :=
  ⟨C5_truncation_stops c5Data 82 163 162 [c5Frame1] c5Hb2 c5Meta2 100 (by decide) (by decide)
    (by decide) (by decide) (by decide), by decide, by decide⟩

/-- C6: an empty read at the current position ends the scan (`Empty
file` if no frame was collected, a clean stop otherwise); non-whitespace
before the opening brace makes the header block malformed, which is
fatal (`Invalid first header`) on the first frame and a non-fatal
incomplete-container stop on any later frame. -/
theorem C6_first_frame_fatal (data : List Nat) (pos fuel : Nat) (frames : List EFrame) :
    (readBytes data pos BLOCKSIZE = [] → read_header_block data pos = .ok (none, pos)) ∧
    (∀ bb, (readBytes data pos BLOCKSIZE).findIdx? (fun b => b == 123) = some bb →
      allWhitespace ((readBytes data pos BLOCKSIZE).take bb) = false →
      read_header_block data pos = .error .malformed) ∧
    (read_header_block data pos = .error .malformed →
      readheaderLoop data (fuel + 1) pos frames =
        if frames.length = 0 then .error .invalidFirst else .ok (frames, true)) ∧
    (∀ npos, read_header_block data pos = .ok (none, npos) →
      readheaderLoop data (fuel + 1) pos frames =
        if frames.length = 0 then .error .empty else .ok (frames, false)) := by
  refine ⟨fun h => ?_, fun bb hbb hw => ?_, fun hm => ?_, fun npos hm => ?_⟩
  · simp [read_header_block, h]
  · have hne : readBytes data pos BLOCKSIZE ≠ [] := by
      intro he
      rw [he] at hbb
      simp at hbb
    rw [read_header_block, if_neg (by simpa [List.length_eq_zero] using hne), hbb]
    simp only []
    rw [if_pos (by simp [hw])]
  · rw [readheaderLoop.eq_def]
    simp only []
    rw [hm]
  · rw [readheaderLoop.eq_def]
    simp only []
    rw [hm]

/-- C6 (witness): the four outcomes on the concrete sources `A{` (junk
before the brace) and the empty source, each with zero and with one
already-collected frame. -/
theorem C6_witness :
    read_header_block (strBytes "A\x7b") 0 = .error .malformed ∧
    readheaderLoop (strBytes "A\x7b") 1 0 [] = .error .invalidFirst ∧
    readheaderLoop (strBytes "A\x7b") 1 0 [dummyFrame] = .ok ([dummyFrame], true) ∧
    read_header_block ([] : List Nat) 0 = .ok (none, 0) ∧
    readheaderLoop ([] : List Nat) 1 0 [] = .error .empty ∧
    readheaderLoop ([] : List Nat) 1 0 [dummyFrame] = .ok ([dummyFrame], false) := by
  refine ⟨?_, ?_, ?_, ?_, ?_, ?_⟩
  · exact (C6_first_frame_fatal (strBytes "A\x7b") 0 0 []).2.1 1 (by decide) (by decide)
  · have h := (C6_first_frame_fatal (strBytes "A\x7b") 0 0 []).2.2.1 (by decide)
    simpa using h
  · have h := (C6_first_frame_fatal (strBytes "A\x7b") 0 0 [dummyFrame]).2.2.1 (by decide)
    simpa using h
  · exact (C6_first_frame_fatal ([] : List Nat) 0 0 []).1 rfl
  · have h := (C6_first_frame_fatal ([] : List Nat) 0 0 []).2.2.2 0 (by decide)
    simpa using h
  · have h := (C6_first_frame_fatal ([] : List Nat) 0 0 [dummyFrame]).2.2.2 0 (by decide)
    simpa using h

/-! ### Claim C9 -/

/-- C9: any continuation of the 6-byte marccd and pilatus prefixes also
matches the generic 4-byte TIFF pattern, yet first-match-wins over the
ordered table resolves them to the vendor-specific identifiers; the two
context-sensitive entries resolve by filename (`::` selects `hdf5` over
the eiger/soleil pair, a `mccd` dot-component selects `marccd` over
`tif`). -/
theorem C9_magic_precedence (rest : List Nat) (filename : String) :
    startsWithBytes [73, 73, 42, 0] ([73, 73, 42, 0, 8, 0] ++ rest) = true ∧
    startsWithBytes [73, 73, 42, 0] ([73, 73, 42, 0, 130, 0] ++ rest) = true ∧
    do_magic ([73, 73, 42, 0, 8, 0] ++ rest) filename =
      (if ("mccd".data) ∈ splitOnChar '.' filename.data then some ["marccd"]
        else some ["tif"]) ∧
    do_magic ([73, 73, 42, 0, 130, 0] ++ rest) filename = some ["pilatus"] ∧
    do_magic ([137, 72, 68, 70, 13, 10, 26, 10] ++ rest) filename =
      (if hasSubChars ("::".data) filename.data then some ["hdf5"]
        else some ["eiger", "soleil"]) :=
  ⟨rfl, rfl, rfl, rfl, rfl⟩

end Fabio
